import Mathlib

/-!
Formal model of the nizo Chrome extension content script (src/content.ts).

The content script is embedded shallowly:

* Pure string-processing code (URL path matching, percent decoding, the
  text-pattern extractors, stack-trace normalization, network-row text
  parsing, deduplication) is translated function by function into
  executable Lean definitions.

* Code that touches the live page or the network (DOM queries, `fetch`,
  clicks, `window.location`) is modelled with an explicit effect monad `M`:
  every primitive browser interaction is an oracle drawn from an `Env`
  record, and emits an `Effect` into a trace.  The DOM changes over time,
  so oracles are indexed by a logical clock that advances at every
  suspension point (`wait`).

JavaScript peculiarities that matter to the claims are modelled explicitly:
string truthiness (`""` and `null` are falsy), `Map.set` overwriting the
stored value while keeping the key's original insertion position, and the
`x || y` / `x ?? y` operators.
-/

/-- Truthiness of a JS `string | null` value: `null` and `""` are falsy. -/
def jsTruthyS : Option String → Bool
  | some s => !s.isEmpty
  | none => false

/-- JS `a || b` for `string | null` values. -/
def jsOrS (a b : Option String) : Option String :=
  if jsTruthyS a then a else b

/-- ASCII lower-casing of a character (model of `String.toLowerCase`). -/
def asciiLower (c : Char) : Char :=
  if 'A' ≤ c && c ≤ 'Z' then Char.ofNat (c.toNat + 32) else c

/-- ASCII upper-casing of a character (model of `String.toUpperCase`). -/
def asciiUpper (c : Char) : Char :=
  if 'a' ≤ c && c ≤ 'z' then Char.ofNat (c.toNat - 32) else c

/-- ASCII lower-casing of a string. -/
def lowerStr (s : String) : String :=
  String.mk (s.toList.map asciiLower)

/-- ASCII upper-casing of a string. -/
def upperStr (s : String) : String :=
  String.mk (s.toList.map asciiUpper)

/-- Whitespace in the sense of the JS `\s` class (ASCII fragment plus NBSP). -/
def isJsWs (c : Char) : Bool :=
  c = ' ' || c = '\t' || c = '\n' || c = '\r' || c.toNat = 11 || c.toNat = 12 ||
    c.toNat = 0xa0

/-- Word character in the sense of the JS `\w` class / `\b` boundary. -/
def isWordChar (c : Char) : Bool :=
  ('a' ≤ c && c ≤ 'z') || ('A' ≤ c && c ≤ 'Z') || ('0' ≤ c && c ≤ '9') || c = '_'

/-- Word-character test on an optional character; absent counts as non-word. -/
def isWordO : Option Char → Bool
  | some c => isWordChar c
  | none => false

/-- Whether a `\b` word boundary separates two adjacent positions. -/
def wordBoundary (a b : Option Char) : Bool :=
  isWordO a != isWordO b

/-- Decimal digit test (JS `\d`). -/
def isDigitCh (c : Char) : Bool :=
  '0' ≤ c && c ≤ '9'

/-- Model of JS `String.prototype.trim`. -/
def jsTrim (s : String) : String :=
  String.mk (((s.toList.dropWhile isJsWs).reverse.dropWhile isJsWs).reverse)

/-- Auxiliary run-collapser for `normalizeText`; the flag records whether the
previous character was whitespace (so a run emits a single space). -/
def collapseWsAux : List Char → Bool → List Char
  | [], _ => []
  | c :: cs, inWs =>
    if isJsWs c then
      if inWs then collapseWsAux cs true else ' ' :: collapseWsAux cs true
    else c :: collapseWsAux cs false

/-- Model of `normalizeText`: `value.replace(/\s+/g, " ").trim()`. -/
def normalizeText (s : String) : String :=
  jsTrim (String.mk (collapseWsAux s.toList false))

/-- Substring search helper on character lists. -/
def listHasSub (pat : List Char) : List Char → Bool
  | [] => pat.isEmpty
  | c :: cs => pat.isPrefixOf (c :: cs) || listHasSub pat cs

/-- Model of JS `String.prototype.includes`. -/
def containsSub (hay pat : String) : Bool :=
  listHasSub pat.toList hay.toList

/-- Fuel-driven splitter modelling JS `String.prototype.split` with a
non-empty separator. -/
def splitSepAux (sep : List Char) : Nat → List Char → List (List Char)
  | _, [] => [[]]
  | 0, cs => [cs]
  | fuel + 1, c :: cs =>
    if sep.isPrefixOf (c :: cs) then
      [] :: splitSepAux sep fuel ((c :: cs).drop sep.length)
    else
      match splitSepAux sep fuel cs with
      | [] => [[c]]
      | h :: t => (c :: h) :: t

/-- Model of JS `s.split(sep)` for a non-empty separator. -/
def jsSplit (s sep : String) : List String :=
  (splitSepAux sep.toList (s.toList.length + 1) s.toList).map String.mk

/-- Case-insensitive (ASCII) prefix test on character lists. -/
def ciPrefix : List Char → List Char → Bool
  | [], _ => true
  | _ :: _, [] => false
  | p :: ps, c :: cs => (asciiLower p = asciiLower c) && ciPrefix ps cs

/-- Insertion-order preserving deduplication (model of `Array.from(new Set(xs))`
for string arrays). -/
def dedupFirst (l : List String) : List String :=
  l.foldl (fun acc s => if acc.contains s then acc else acc ++ [s]) []

/-- First-match lookup in an association list, with the JS `map[k] || null`
normalization that turns an empty-string value into `null`. -/
def lookupJs (m : List (String × String)) (k : String) : Option String :=
  match m.find? (fun p => p.1 == k) with
  | some p => if p.2.isEmpty then none else some p.2
  | none => none

/-- UTF-8 encoding of a single code point (as byte values). -/
def utf8EncodeCp (n : Nat) : List Nat :=
  if n < 0x80 then [n]
  else if n < 0x800 then [0xC0 + n / 64, 0x80 + n % 64]
  else if n < 0x10000 then
    [0xE0 + n / 4096, 0x80 + n / 64 % 64, 0x80 + n % 64]
  else
    [0xF0 + n / 262144, 0x80 + n / 4096 % 64, 0x80 + n / 64 % 64, 0x80 + n % 64]

/-- UTF-8 byte sequence of a string (byte values). -/
def strToBytes (s : String) : List Nat :=
  s.toList.flatMap (fun c => utf8EncodeCp c.toNat)

/-- Continuation-byte test. -/
def isCont (b : Nat) : Bool :=
  0x80 ≤ b && b < 0xC0

/-- Strict UTF-8 decoding (fuel-driven): rejects stray or missing
continuation bytes, overlong encodings, surrogates and out-of-range code
points, as the JS TextDecoder does. -/
def utf8DecodeAux : Nat → List Nat → Option (List Char)
  | _, [] => some []
  | 0, _ => none
  | fuel + 1, b :: rest =>
    if b < 0x80 then (utf8DecodeAux fuel rest).map (Char.ofNat b :: ·)
    else if b < 0xC0 then none
    else if b < 0xE0 then
      match rest with
      | b2 :: rest2 =>
        if isCont b2 then
          let cp := (b - 0xC0) * 64 + (b2 - 0x80)
          if cp < 0x80 then none
          else (utf8DecodeAux fuel rest2).map (Char.ofNat cp :: ·)
        else none
      | _ => none
    else if b < 0xF0 then
      match rest with
      | b2 :: b3 :: rest2 =>
        if isCont b2 && isCont b3 then
          let cp := (b - 0xE0) * 4096 + (b2 - 0x80) * 64 + (b3 - 0x80)
          if cp < 0x800 || (0xD800 ≤ cp && cp ≤ 0xDFFF) then none
          else (utf8DecodeAux fuel rest2).map (Char.ofNat cp :: ·)
        else none
      | _ => none
    else if b < 0xF8 then
      match rest with
      | b2 :: b3 :: b4 :: rest2 =>
        if isCont b2 && isCont b3 && isCont b4 then
          let cp := (b - 0xF0) * 262144 + (b2 - 0x80) * 4096 +
            (b3 - 0x80) * 64 + (b4 - 0x80)
          if cp < 0x10000 || cp > 0x10FFFF then none
          else (utf8DecodeAux fuel rest2).map (Char.ofNat cp :: ·)
        else none
      | _ => none
    else none

/-- Hex digit value, accepting both cases (as `decodeURIComponent` does). -/
def hexVal (b : Nat) : Option Nat :=
  if 48 ≤ b && b ≤ 57 then some (b - 48)
  else if 97 ≤ b && b ≤ 102 then some (b - 87)
  else if 65 ≤ b && b ≤ 70 then some (b - 55)
  else none

/-- Percent-decoding pass over UTF-8 bytes; fails on a malformed escape. -/
def percentDecodeBytes : List Nat → Option (List Nat)
  | [] => some []
  | b :: rest =>
    if b = 37 then
      match rest with
      | h1 :: h2 :: rest2 =>
        match hexVal h1, hexVal h2 with
        | some v1, some v2 =>
          (percentDecodeBytes rest2).map (fun tail => (v1 * 16 + v2) :: tail)
        | _, _ => none
      | _ => none
    else
      (percentDecodeBytes rest).map (fun tail => b :: tail)

/-- Model of `decodeURIComponent`: percent-decode the UTF-8 bytes and re-decode;
fails (`none`) on a malformed escape or invalid UTF-8, mirroring the thrown
`URIError`. -/
def decodeURIComponentM (s : String) : Option String := do
  let bytes ← percentDecodeBytes (strToBytes s)
  let chars ← utf8DecodeAux bytes.length bytes
  some (String.mk chars)

/-- Model of `decodeSafe`: `decodeURIComponent` with the original value as the
fallback when decoding throws. -/
def decodeSafe (s : String) : String :=
  match decodeURIComponentM s with
  | some d => d
  | none => s

/-- Unreserved characters of `encodeURIComponent` (kept verbatim). -/
def isUriUnreserved (n : Nat) : Bool :=
  (48 ≤ n && n ≤ 57) || (65 ≤ n && n ≤ 90) || (97 ≤ n && n ≤ 122) ||
    n = 45 || n = 95 || n = 46 || n = 33 || n = 126 || n = 42 || n = 39 ||
    n = 40 || n = 41

/-- Upper-case hex digit for a value below 16. -/
def hexDigit (n : Nat) : Char :=
  if n < 10 then Char.ofNat (48 + n) else Char.ofNat (55 + n)

/-- Model of `encodeURIComponent` over the string's UTF-8 bytes. -/
def encodeURIComponentM (s : String) : String :=
  String.mk ((strToBytes s).foldr
    (fun b acc =>
      if isUriUnreserved b then Char.ofNat b :: acc
      else '%' :: hexDigit (b / 16) :: hexDigit (b % 16) :: acc) [])

/-! ### URL path patterns used by `getPageContext`

Each regular expression from the source is implemented as a dedicated
matcher over the pathname's characters.  The character classes `[^/]+` and
`[^/?#]+` exclude the character that terminates them, so the greedy match
is exactly the maximal run and no backtracking can arise. -/

/-- Greedy `[^/]+` run. -/
def takeSeg (cs : List Char) : List Char :=
  cs.takeWhile (fun c => c ≠ '/')

/-- Greedy `[^/?#]+` run. -/
def takeCap (cs : List Char) : List Char :=
  cs.takeWhile (fun c => c ≠ '/' && c ≠ '?' && c ≠ '#')

/-- Literal prefix stripper (returns the remainder on success). -/
def stripPre (pre cs : List Char) : Option (List Char) :=
  match pre, cs with
  | [], rest => some rest
  | _ :: _, [] => none
  | p :: ps, c :: rest => if p = c then stripPre ps rest else none

/-- Matcher for `/^\/organizations\/([^/]+)\//`. -/
def orgPat1 (cs : List Char) : Option String := do
  let rest ← stripPre "/organizations/".toList cs
  let seg := takeSeg rest
  if seg.isEmpty then none
  else match rest.drop seg.length with
    | '/' :: _ => some (String.mk seg)
    | _ => none

/-- Matcher for `/^\/([^/]+)\/issues\//` and `/^\/([^/]+)\/replays\//`
(the section name is passed in, e.g. `"issues"`). -/
def segSectionPat (sect cs : List Char) : Option String :=
  match cs with
  | '/' :: rest =>
    let seg := takeSeg rest
    if seg.isEmpty then none
    else
      match stripPre ('/' :: sect ++ ['/']) (rest.drop seg.length) with
      | some _ => some (String.mk seg)
      | none => none
  | _ => none

/-- Matcher for `/^\/organizations\/[^/]+\/issues\/([^/?#]+)/` (and the
`replays` variant, via the section parameter). -/
def orgSectionCapPat (sect cs : List Char) : Option String := do
  let rest ← stripPre "/organizations/".toList cs
  let seg := takeSeg rest
  if seg.isEmpty then none
  else do
    let rest2 ← stripPre ('/' :: sect ++ ['/']) (rest.drop seg.length)
    let cap := takeCap rest2
    if cap.isEmpty then none else some (String.mk cap)

/-- Matcher for `/^\/issues\/([^/?#]+)/` (and the `replays` variant). -/
def rootSectionCapPat (sect cs : List Char) : Option String := do
  let rest ← stripPre ('/' :: sect ++ ['/']) cs
  let cap := takeCap rest
  if cap.isEmpty then none else some (String.mk cap)

/-- Matcher for `/^\/[^/]+\/issues\/([^/?#]+)/` (and the `replays` variant). -/
def segSectionCapPat (sect cs : List Char) : Option String :=
  match cs with
  | '/' :: rest =>
    let seg := takeSeg rest
    if seg.isEmpty then none
    else
      match stripPre ('/' :: sect ++ ['/']) (rest.drop seg.length) with
      | some rest2 =>
        let cap := takeCap rest2
        if cap.isEmpty then none else some (String.mk cap)
      | none => none
  | _ => none

/-- Unanchored search for `/\/issues\/([^/?#]+)/` (and the `replays`
variant): leftmost position where the literal section prefix is followed by
at least one `[^/?#]` character. -/
def searchSectionCap (sect : List Char) : List Char → Option String
  | [] => none
  | c :: cs =>
    match stripPre ('/' :: sect ++ ['/']) (c :: cs) with
    | some rest =>
      let cap := takeCap rest
      if cap.isEmpty then searchSectionCap sect cs else some (String.mk cap)
    | none => searchSectionCap sect cs

/-- Model of `firstPathMatch`: first pattern whose capture group matched,
with `decodeSafe` applied to the captured value. -/
def firstPathMatch (cs : List Char) (pats : List (List Char → Option String)) :
    Option String :=
  match pats with
  | [] => none
  | p :: rest =>
    match p cs with
    | some v => some (decodeSafe v)
    | none => firstPathMatch cs rest

inductive PageType where
  | issue
  | replay
  | other
deriving DecidableEq, Repr

structure PageContext where
  origin : String
  organizationSlug : Option String
  issueId : Option String
  replayId : Option String
  pageType : PageType
deriving DecidableEq, Repr

/-- Model of `getPageContext`.  `window.location` is passed in as
`origin`/`pathname`, and the DOM-scanning fallback
`inferOrganizationSlugFromDom` is the `domOrgSlug` oracle value. -/
def getPageContext (origin pathname : String) (domOrgSlug : Option String) :
    PageContext :=
  let p := pathname.toList
  let organizationFromPath := firstPathMatch p
    [orgPat1, segSectionPat "issues".toList, segSectionPat "replays".toList]
  let organizationSlug := jsOrS organizationFromPath domOrgSlug
  let issueId := firstPathMatch p
    [orgSectionCapPat "issues".toList, rootSectionCapPat "issues".toList,
      segSectionCapPat "issues".toList]
  if jsTruthyS issueId then
    { origin, organizationSlug, issueId, replayId := none, pageType := .issue }
  else
    let replayId := firstPathMatch p
      [orgSectionCapPat "replays".toList, rootSectionCapPat "replays".toList,
        segSectionCapPat "replays".toList]
    if jsTruthyS replayId then
      { origin, organizationSlug, issueId := none, replayId, pageType := .replay }
    else
      match searchSectionCap "issues".toList p with
      | some raw =>
        { origin, organizationSlug, issueId := some (decodeSafe raw),
          replayId := none, pageType := .issue }
      | none =>
        match searchSectionCap "replays".toList p with
        | some raw =>
          { origin, organizationSlug, issueId := none,
            replayId := some (decodeSafe raw), pageType := .replay }
        | none =>
          { origin, organizationSlug := none, issueId := none,
            replayId := none, pageType := .other }

/-- The claimed page-context invariant: `issueId`/`replayId` presence agrees
with the page type. -/
def pageContextInvariant (c : PageContext) : Bool :=
  match c.pageType with
  | .issue => c.issueId.isSome && c.replayId.isNone
  | .replay => c.replayId.isSome && c.issueId.isNone
  | .other => c.issueId.isNone && c.replayId.isNone

/-! ### Text-pattern extractors

Each extractor models one regular expression from the source with JS
semantics: leftmost match wins, quantifiers are greedy with backtracking,
`\b` is a word boundary, and the `i` flag is ASCII case-insensitivity. -/

/-- Leftmost-match scanner: try the position matcher `f` (which receives the
preceding character for `\b` tests) at every position, left to right. -/
def scanFind {α : Type} (f : Option Char → List Char → Option α) :
    Option Char → List Char → Option α
  | prev, [] => f prev []
  | prev, c :: cs =>
    match f prev (c :: cs) with
    | some r => some r
    | none => scanFind f (some c) cs

/-- The HTTP verb alternation, in source order. -/
def httpMethods : List String :=
  ["GET", "POST", "PUT", "PATCH", "DELETE", "OPTIONS", "HEAD"]

/-- Position matcher for `/\b(GET|POST|PUT|PATCH|DELETE|OPTIONS|HEAD)\b/i`. -/
def tryMethodAt (prev : Option Char) (cs : List Char) : Option String :=
  if !wordBoundary prev cs.head? then none
  else
    httpMethods.findSome? fun m =>
      let w := m.toList
      if ciPrefix w cs then
        let matched := cs.take w.length
        if wordBoundary matched.getLast? (cs.drop w.length).head? then
          some (upperStr (String.mk matched))
        else none
      else none

/-- Model of `extractHttpMethod` (returns `match[1].toUpperCase()`). -/
def extractHttpMethod (s : String) : Option String :=
  scanFind tryMethodAt none s.toList

/-- Position matcher for `/\b([1-5]\d{2})\b/`. -/
def tryStatusAt (prev : Option Char) (cs : List Char) : Option Nat :=
  match cs with
  | a :: b :: c :: rest =>
    if ('1' ≤ a && a ≤ '5') && isDigitCh b && isDigitCh c &&
        wordBoundary prev (some a) && wordBoundary (some c) rest.head? then
      some ((a.toNat - 48) * 100 + (b.toNat - 48) * 10 + (c.toNat - 48))
    else none
  | _ => none

/-- Model of `extractStatusCode`. -/
def extractStatusCode (s : String) : Option Nat :=
  scanFind tryStatusAt none s.toList

/-- Position matcher for `/\b\d{1,2}:\d{2}\b/`; the greedy `\d{1,2}` tries two
digits before one. -/
def tryTimestampAt (prev : Option Char) (cs : List Char) : Option String :=
  (match cs with
    | d1 :: d2 :: ':' :: e1 :: e2 :: rest =>
      if isDigitCh d1 && isDigitCh d2 && isDigitCh e1 && isDigitCh e2 &&
          wordBoundary prev (some d1) && wordBoundary (some e2) rest.head? then
        some (String.mk [d1, d2, ':', e1, e2])
      else none
    | _ => none).orElse fun _ =>
    match cs with
    | d1 :: ':' :: e1 :: e2 :: rest =>
      if isDigitCh d1 && isDigitCh e1 && isDigitCh e2 &&
          wordBoundary prev (some d1) && wordBoundary (some e2) rest.head? then
        some (String.mk [d1, ':', e1, e2])
      else none
    | _ => none

/-- Model of `extractTimestamp`. -/
def extractTimestamp (s : String) : Option String :=
  scanFind tryTimestampAt none s.toList

/-- Unit part of the duration pattern: `(?:ms|s)\b`, alternatives in order. -/
def durUnit (acc rest : List Char) : Option (List Char) :=
  (match rest with
    | m :: s :: rest2 =>
      if asciiLower m = 'm' && asciiLower s = 's' &&
          wordBoundary (some s) rest2.head? then
        some (acc ++ [m, s])
      else none
    | _ => none).orElse fun _ =>
    match rest with
    | s :: rest2 =>
      if asciiLower s = 's' && wordBoundary (some s) rest2.head? then
        some (acc ++ [s])
      else none
    | _ => none

/-- Optional single whitespace of the duration pattern (`\s?`, greedy). -/
def durSpace (acc rest : List Char) : Option (List Char) :=
  (match rest with
    | c :: rest2 => if isJsWs c then durUnit (acc ++ [c]) rest2 else none
    | [] => none).orElse fun _ => durUnit acc rest

/-- Optional decimal part of the duration pattern (`(?:\.\d+)?`, greedy). -/
def durDec (acc rest : List Char) : Option (List Char) :=
  (match rest with
    | '.' :: rest2 =>
      let ds2 := rest2.takeWhile isDigitCh
      if ds2.isEmpty then none
      else durSpace (acc ++ '.' :: ds2) (rest2.drop ds2.length)
    | _ => none).orElse fun _ => durSpace acc rest

/-- Position matcher for `/\b\d+(?:\.\d+)?\s?(?:ms|s)\b/i`. -/
def tryDurationAt (prev : Option Char) (cs : List Char) : Option (List Char) :=
  if !wordBoundary prev cs.head? then none
  else
    let ds := cs.takeWhile isDigitCh
    if ds.isEmpty then none else durDec ds (cs.drop ds.length)

/-- All matches of a position matcher under the `g` flag: scanning resumes
after the end of each match.  The fuel argument is the remaining length. -/
def scanAllAux (f : Option Char → List Char → Option (List Char)) :
    Option Char → List Char → Nat → List (List Char)
  | _, _, 0 => []
  | _, [], _ + 1 => []
  | prev, c :: rest, fuel + 1 =>
    match f prev (c :: rest) with
    | some m =>
      m :: scanAllAux f m.getLast? ((c :: rest).drop m.length) fuel
    | none => scanAllAux f (some c) rest fuel

/-- Model of `extractDuration` (`matchAll`, keep the last match). -/
def extractDuration (s : String) : Option String :=
  match (scanAllAux tryDurationAt none s.toList s.toList.length).getLast? with
  | some m => some (String.mk m)
  | none => none

/-- Host character class `[a-z0-9-]` under the `i` flag. -/
def isHostCh (c : Char) : Bool :=
  (let l := asciiLower c; 'a' ≤ l && l ≤ 'z') || isDigitCh c || c = '-'

/-- Greedy collection of the `(?:\.[a-z0-9-]+)+` groups of the host pattern
(fuel-driven recursion; the fuel is the remaining length, and every step
consumes at least two characters).  Returns the component runs and the
unconsumed remainder. -/
def hostGroupsAux : Nat → List Char → List (List Char) × List Char
  | 0, cs => ([], cs)
  | fuel + 1, cs =>
    match cs with
    | '.' :: rest =>
      let r := rest.takeWhile isHostCh
      if r.isEmpty then ([], '.' :: rest)
      else
        let (gs, rem) := hostGroupsAux fuel (rest.drop r.length)
        (r :: gs, rem)
    | other => ([], other)

/-- Entry point for `hostGroupsAux` with sufficient fuel. -/
def hostGroups (cs : List Char) : List (List Char) × List Char :=
  hostGroupsAux cs.length cs

/-- Whether keeping the first `k` characters of the final host run satisfies
the trailing `\b` (the dropped characters rejoin the remainder). -/
def hostKeepOk (run : List Char) (k : Nat) (rest : List Char) : Bool :=
  match (run.take k).getLast? with
  | some lastC => wordBoundary (some lastC) (run.drop k ++ rest).head?
  | none => false

/-- Backtracking of the final host run: longest acceptable prefix first. -/
def hostShrink (run rest : List Char) : Option (List Char) :=
  ((List.range run.length).reverse.map (· + 1)).findSome? fun k =>
    if hostKeepOk run k rest then some (run.take k) else none

/-- Backtracking over host components, in regex order: shrink the final run,
then drop the final `\.`-group entirely (never below two components).  The
component list is processed reversed (final run first). -/
def hostAcceptRev : List (List Char) → List Char → Option (List (List Char))
  | [], _ => none
  | last :: prevRev, rest =>
    match hostShrink last rest with
    | some kept => some (kept :: prevRev)
    | none =>
      match prevRev with
      | [] => none
      | [_] => none
      | _ :: _ :: _ => hostAcceptRev prevRev ('.' :: (last ++ rest))

/-- Position matcher for `/\b([a-z0-9-]+(?:\.[a-z0-9-]+)+)\b/i`. -/
def tryHostAt (prev : Option Char) (cs : List Char) : Option String :=
  match cs.head? with
  | none => none
  | some first =>
    if !(isHostCh first) || !wordBoundary prev (some first) then none
    else
      let r1 := cs.takeWhile isHostCh
      let (gs, rest) := hostGroups (cs.drop r1.length)
      if gs.isEmpty then none
      else
        match hostAcceptRev (r1 :: gs).reverse rest with
        | some revRuns =>
          some (String.intercalate "." (revRuns.reverse.map String.mk))
        | none => none

/-- Model of `extractHost`. -/
def extractHost (s : String) : Option String :=
  scanFind tryHostAt none s.toList

/-- Case-insensitive literal prefix stripper. -/
def ciStrip (pre cs : List Char) : Option (List Char) :=
  match pre, cs with
  | [], rest => some rest
  | _ :: _, [] => none
  | p :: ps, c :: rest => if asciiLower p = asciiLower c then ciStrip ps rest else none

/-- Tail of the URL pattern after the scheme: `:\/\/[^\s]+` (greedy). -/
def urlTail (scheme rest : List Char) : Option (List Char) :=
  match ciStrip "://".toList rest with
  | some r3 =>
    let run := r3.takeWhile (fun c => !isJsWs c)
    if run.isEmpty then none else some (scheme ++ ':' :: '/' :: '/' :: run)
  | none => none

/-- Position matcher for `/https?:\/\/[^\s]+/i` (greedy optional `s` first). -/
def tryUrlAt (_prev : Option Char) (cs : List Char) : Option (List Char) :=
  if ciPrefix "http".toList cs then
    let afterHttp := cs.drop 4
    (match afterHttp with
      | c :: r2 =>
        if asciiLower c = 's' then urlTail (cs.take 5) r2 else none
      | [] => none).orElse fun _ => urlTail (cs.take 4) afterHttp
  else none

/-- Leftmost match of `/https?:\/\/[^\s]+/i` (the `rawUrlMatch` searches). -/
def findUrlMatch (s : String) : Option String :=
  match scanFind tryUrlAt none s.toList with
  | some m => some (String.mk m)
  | none => none

/-- Drop everything up to and including the last occurrence of a character
(used for stripping URL userinfo). -/
def dropThroughLast (c : Char) (l : List Char) : List Char :=
  if l.contains c then (l.reverse.takeWhile (fun x => x ≠ c)).reverse else l

/-- Model of `new URL(u).hostname` for absolute `http(s)` URLs (the only
shapes the source feeds it): lower-cased authority host, userinfo and port
stripped; `none` models the constructor throwing / an empty host. -/
def urlHostname (u : String) : Option String :=
  let cs := u.toList
  let afterScheme :=
    if ciPrefix "https://".toList cs then some (cs.drop 8)
    else if ciPrefix "http://".toList cs then some (cs.drop 7)
    else none
  match afterScheme with
  | none => none
  | some rest =>
    let auth := rest.takeWhile (fun c => c ≠ '/' && c ≠ '?' && c ≠ '#')
    let hostPort := dropThroughLast '@' auth
    let host := hostPort.takeWhile (fun c => c ≠ ':')
    if host.isEmpty then none else some (lowerStr (String.mk host))

/-! ### Row shapes and deduplication -/

/-- Replay error row (`{eventId, title, issue, timestamp}`), all nullable. -/
structure ErrorRow where
  eventId : Option String
  title : Option String
  issue : Option String
  timestamp : Option String
deriving DecidableEq, Repr

/-- Replay network row.  `status` uses `Int` for the JS number. -/
structure NetworkRow where
  method : Option String
  status : Option Int
  host : Option String
  requestUrl : Option String
  duration : Option String
  timestamp : Option String
  detailsUrl : Option String
  title : String
deriving DecidableEq, Repr

/-- `String(x || "")` for a nullable string. -/
def optStr (o : Option String) : String := o.getD ""

/-- `String(x || "")` for a nullable number (`0` is falsy). -/
def statusStr : Option Int → String
  | some n => if n = 0 then "" else toString n
  | none => ""

/-- Composite key of an error row: the four fields joined with `"|"`. -/
def errKey (r : ErrorRow) : String :=
  String.intercalate "|" [optStr r.eventId, optStr r.title, optStr r.issue,
    optStr r.timestamp]

/-- Composite key of a network row: method, status, host, requestUrl and
timestamp joined with `"|"`. -/
def netKey (r : NetworkRow) : String :=
  String.intercalate "|" [optStr r.method, statusStr r.status, optStr r.host,
    optStr r.requestUrl, optStr r.timestamp]

/-- Model of JS `Map.prototype.set` on an association list: an existing key
keeps its original position but its stored value is replaced; a new key is
appended. -/
def mapSet {ρ : Type} (m : List (String × ρ)) (k : String) (v : ρ) :
    List (String × ρ) :=
  if m.any (fun p => p.1 == k) then
    m.map (fun p => if p.1 == k then (k, v) else p)
  else m ++ [(k, v)]

/-- The merge-and-deduplicate step: fold the rows into a JS `Map` keyed by
the composite key, then take `Array.from(map.values())`. -/
def dedupeByKey {ρ : Type} (key : ρ → String) (rows : List ρ) : List ρ :=
  (rows.foldl (fun m r => mapSet m (key r) r) []).map (fun p => p.2)

/-- Deduplication of error rows as in `getReplayErrorEventsFromDomWithRetry`
(and `parseReplayEventsFromPageText`). -/
def dedupeErrorRows : List ErrorRow → List ErrorRow :=
  dedupeByKey errKey

/-- Deduplication of network rows as in
`getReplayNetworkEventsFromDomWithRetry`,
`parseReplayNetworkEventsFromPageText` and
`getReplayNetworkEventsFromApiSegments`. -/
def dedupeNetworkRows : List NetworkRow → List NetworkRow :=
  dedupeByKey netKey

/-- Model of `isNetworkErrorEntry`. -/
def isNetworkErrorEntry (entry : NetworkRow) : Bool :=
  (match entry.status with
    | some n => decide (n ≥ 400)
    | none => false) ||
  (let title := lowerStr entry.title
   let requestUrl := lowerStr (entry.requestUrl.getD "")
   let haystack := title ++ " " ++ requestUrl
   containsSub haystack "error" || containsSub haystack "failed" ||
   containsSub haystack "timeout" || containsSub haystack "abort" ||
   containsSub haystack "blocked" || containsSub haystack "refused" ||
   containsSub haystack "cancel")

/-- Per-line parse of the free-text network extraction (the first loop of
`parseReplayNetworkEventsFromPageText`). -/
def parseReplayNetworkLine (line : String) : Option NetworkRow :=
  match extractHttpMethod line with
  | none => none
  | some _ =>
    if (extractStatusCode line).isNone && (extractHost line).isNone then none
    else
      let rawUrl := findUrlMatch line
      let host :=
        match extractHost line with
        | some h => some h
        | none =>
          match rawUrl with
          | some u => urlHostname u
          | none => none
      some { method := extractHttpMethod line
           , status := (extractStatusCode line).map Int.ofNat
           , host
           , requestUrl := rawUrl
           , duration := extractDuration line
           , timestamp := extractTimestamp line
           , detailsUrl := none
           , title := line }

/-- Duration part of the fallback block pattern: `(\d+(?:\.\d+)?ms)`. -/
def blockDur (cs : List Char) : Option (List Char) :=
  let ds := cs.takeWhile isDigitCh
  if ds.isEmpty then none
  else
    let r := cs.drop ds.length
    (match r with
      | '.' :: r2 =>
        let ds2 := r2.takeWhile isDigitCh
        if ds2.isEmpty then none
        else
          match r2.drop ds2.length with
          | m :: s :: _ =>
            if asciiLower m = 'm' && asciiLower s = 's' then
              some (ds ++ '.' :: ds2 ++ [m, s])
            else none
          | _ => none
      | _ => none).orElse fun _ =>
      match r with
      | m :: s :: _ =>
        if asciiLower m = 'm' && asciiLower s = 's' then some (ds ++ [m, s])
        else none
      | _ => none

/-- Lazy gap of the fallback block pattern, `[\s\S]{0,80}?`: smallest gap
first; returns gap chars and duration chars. -/
def blockGap (rest : List Char) : Option (List Char × List Char) :=
  (List.range 81).findSome? fun g =>
    if g ≤ rest.length then
      match blockDur (rest.drop g) with
      | some dur => some (rest.take g, dur)
      | none => none
    else none

/-- URL group of the fallback block pattern with backtracking: the greedy
`[^\s]+` run is shortened (longest first) until the gap-plus-duration tail
matches. -/
def blockUrl (scheme run rest : List Char) :
    Option (List Char × List Char × List Char) :=
  ((List.range run.length).reverse.map (· + 1)).findSome? fun k =>
    match blockGap (run.drop k ++ rest) with
    | some (gap, dur) =>
      some (scheme ++ ':' :: '/' :: '/' :: run.take k, gap, dur)
    | none => none

/-- Scheme alternatives of the URL group (`https?`, greedy `s?`). -/
def blockScheme (cs : List Char) : Option (List Char × List Char) :=
  if ciPrefix "http".toList cs then
    let afterHttp := cs.drop 4
    (match afterHttp with
      | c :: r2 =>
        if asciiLower c = 's' then
          match ciStrip "://".toList r2 with
          | some r3 => some (cs.take 5, r3)
          | none => none
        else none
      | [] => none).orElse fun _ =>
      match ciStrip "://".toList afterHttp with
      | some r3 => some (cs.take 4, r3)
      | none => none
  else none

/-- Position matcher for the fallback block pattern
`/\b(GET|...)\b\s+([1-5]\d{2})\s+(https?:\/\/[^\s]+)[\s\S]{0,80}?(\d+(?:\.\d+)?ms)/gi`;
returns the full consumed match and the parsed row. -/
def tryBlockAt (prev : Option Char) (cs : List Char) :
    Option (List Char × NetworkRow) :=
  if !wordBoundary prev cs.head? then none
  else
    httpMethods.findSome? fun mth =>
      let w := mth.toList
      if !ciPrefix w cs then none
      else
        let methodChars := cs.take w.length
        let r1 := cs.drop w.length
        if !wordBoundary methodChars.getLast? r1.head? then none
        else
          let ws1 := r1.takeWhile isJsWs
          if ws1.isEmpty then none
          else
            match r1.drop ws1.length with
            | a :: b :: c :: r3 =>
              if !(('1' ≤ a && a ≤ '5') && isDigitCh b && isDigitCh c) then none
              else
                let ws2 := r3.takeWhile isJsWs
                if ws2.isEmpty then none
                else
                  match blockScheme (r3.drop ws2.length) with
                  | none => none
                  | some (scheme, afterScheme) =>
                    let run := afterScheme.takeWhile (fun ch => !isJsWs ch)
                    if run.isEmpty then none
                    else
                      match blockUrl scheme run (afterScheme.drop run.length) with
                      | none => none
                      | some (urlChars, gap, dur) =>
                        let url := String.mk urlChars
                        let host :=
                          match urlHostname url with
                          | some h => some h
                          | none => extractHost url
                        let consumed := methodChars ++ ws1 ++ a :: b :: c :: ws2 ++
                          urlChars ++ gap ++ dur
                        some (consumed,
                          { method := some (upperStr (String.mk methodChars))
                          , status := some (Int.ofNat
                              ((a.toNat - 48) * 100 + (b.toNat - 48) * 10 + (c.toNat - 48)))
                          , host
                          , requestUrl := some url
                          , duration := some (String.mk dur)
                          , timestamp := none
                          , detailsUrl := none
                          , title := upperStr (String.mk methodChars) ++ " " ++ url })
            | _ => none

/-- All fallback block matches under the `g` flag. -/
def scanBlocksAux (prev : Option Char) (cs : List Char) :
    Nat → List NetworkRow
  | 0 => []
  | fuel + 1 =>
    match cs with
    | [] => []
    | c :: rest =>
      match tryBlockAt prev (c :: rest) with
      | some (consumed, row) =>
        row :: scanBlocksAux consumed.getLast? ((c :: rest).drop consumed.length) fuel
      | none => scanBlocksAux (some c) rest fuel

/-- Model of `parseReplayNetworkEventsFromPageText` on a given page text. -/
def parseReplayNetworkEventsFromPageText (pageText : String) : List NetworkRow :=
  let lines := ((jsSplit pageText "\n").map normalizeText).filter
    (fun l => !l.isEmpty)
  let parsed := lines.filterMap parseReplayNetworkLine
  let parsed :=
    if parsed.isEmpty then
      scanBlocksAux none pageText.toList pageText.toList.length
    else parsed
  dedupeNetworkRows parsed

/-! ### Stack-trace normalization -/

/-- Alphanumeric character class `[a-zA-Z0-9]`. -/
def isAlnumCh (c : Char) : Bool :=
  ('a' ≤ c && c ≤ 'z') || ('A' ≤ c && c ≤ 'Z') || isDigitCh c

/-- Anchored test for `/^\d{1,2}:\d{2}\s*(am|pm)$/i` (greedy hour digits). -/
def amPmEnd (rest : List Char) : Bool :=
  let r := rest.dropWhile isJsWs
  (match ciStrip "am".toList r with
    | some [] => true
    | _ => false) ||
  (match ciStrip "pm".toList r with
    | some [] => true
    | _ => false)

/-- Full-string time test used by `isStackNoiseLine`. -/
def isClockNoise (cs : List Char) : Bool :=
  (match cs with
    | d1 :: d2 :: ':' :: e1 :: e2 :: rest =>
      isDigitCh d1 && isDigitCh d2 && isDigitCh e1 && isDigitCh e2 && amPmEnd rest
    | _ => false) ||
  (match cs with
    | d1 :: ':' :: e1 :: e2 :: rest =>
      isDigitCh d1 && isDigitCh e1 && isDigitCh e2 && amPmEnd rest
    | _ => false)

/-- Model of `isStackNoiseLine`. -/
def isStackNoiseLine (line : String) : Bool :=
  let normalized := lowerStr (jsTrim line)
  if normalized.isEmpty then true
  else if ["stack trace", "most relevant", "full stack trace", "newest",
      "display", "unsymbolicated", "raw stack trace", "in app"].contains
      normalized then true
  else isClockNoise normalized.toList

/-- Parsed pretty frame (`parseFrameFromPrettyLine` result shape). -/
structure PrettyFrame where
  functionName : String
  file : String
  lineNo : String
  moduleName : Option String
deriving DecidableEq, Repr

/-- Mandatory whitespace `\s+` (maximal run; every following pattern element
begins with a non-whitespace character, so no backtracking arises). -/
def splitWs (cs : List Char) : Option (List Char) :=
  let w := cs.takeWhile isJsWs
  if w.isEmpty then none else some (cs.drop w.length)

/-- Tail of the pretty-frame pattern after the function name:
`\s+at line\s+(\d+)(?:\s+within\s+(.+))?$`. -/
def frameAfterFn (rest : List Char) : Option (String × Option String) := do
  let r1 ← splitWs rest
  let r2 ← ciStrip "at line".toList r1
  let r3 ← splitWs r2
  let digits := r3.takeWhile isDigitCh
  if digits.isEmpty then none
  else
    let r4 := r3.drop digits.length
    let withinPart : Option (String × Option String) := do
      let r5 ← splitWs r4
      let r6 ← ciStrip "within".toList r5
      let r7 ← splitWs r6
      if r7.isEmpty then none
      else some (String.mk digits, some (String.mk r7))
    match withinPart with
    | some res => some res
    | none => if r4.isEmpty then some (String.mk digits, none) else none

/-- Model of `parseFrameFromPrettyLine`:
`/^(.+?)\s+in\s+(.+?)\s+at line\s+(\d+)(?:\s+within\s+(.+))?$/i` with lazy
groups (shortest split first). -/
def parseFrameFromPrettyLine (line : String) : Option PrettyFrame :=
  let cs := line.toList
  let raw := ((List.range cs.length).map (· + 1)).findSome? fun i => do
    let file := cs.take i
    let r1 ← splitWs (cs.drop i)
    let r2 ← ciStrip "in".toList r1
    let r3 ← splitWs r2
    ((List.range r3.length).map (· + 1)).findSome? fun j => do
      let fn := r3.take j
      let (lineNo, moduleRaw) ← frameAfterFn (r3.drop j)
      some (String.mk file, String.mk fn, lineNo, moduleRaw)
  match raw with
  | none => none
  | some (fileRaw, fnRaw, lineNoRaw, moduleRaw) =>
    let file := jsTrim fileRaw
    let functionName := jsTrim fnRaw
    let lineNo := jsTrim lineNoRaw
    let moduleName :=
      match moduleRaw with
      | some m => if (jsTrim m).isEmpty then none else some (jsTrim m)
      | none => none
    if file.isEmpty || functionName.isEmpty || lineNo.isEmpty then none
    else some { functionName, file, lineNo, moduleName }

/-- Model of `formatFrameAsRaw`. -/
def formatFrameAsRaw (frame : PrettyFrame) (index : Nat) : String :=
  let location :=
    match frame.moduleName with
    | some m => "package:" ++ m ++ "/" ++ frame.file ++ ":" ++ frame.lineNo
    | none => frame.file ++ ":" ++ frame.lineNo
  "  #" ++ toString index ++ "      " ++ frame.functionName ++ " (" ++ location ++ ")"

/-- Test for `/^#\d+\s+/`. -/
def startsRawFrame (line : String) : Bool :=
  match line.toList with
  | '#' :: rest =>
    let digits := rest.takeWhile isDigitCh
    !digits.isEmpty && !((rest.drop digits.length).takeWhile isJsWs).isEmpty
  | _ => false

/-- Model of `toRawStacktraceFromSection`. -/
def toRawStacktraceFromSection (sectionText : String) : Option String :=
  let lines := ((jsSplit sectionText "\n").map jsTrim).filter
    (fun l => !isStackNoiseLine l)
  if lines.isEmpty then none
  else
    match lines.findIdx? startsRawFrame with
    | some idx =>
      let head := jsTrim (String.intercalate " " (lines.take idx))
      let rawLines := lines.drop idx
      some (String.intercalate "\n" ((head :: rawLines).filter (fun l => !l.isEmpty)))
    | none =>
      let parsedFrames := lines.filterMap parseFrameFromPrettyLine
      if parsedFrames.isEmpty then
        some (String.intercalate "\n" (lines.take 220))
      else
        let firstFrameLine :=
          (lines.findIdx? (fun l => (parseFrameFromPrettyLine l).isSome)).getD 0
        let beforeFrames := if firstFrameLine > 0 then lines.take firstFrameLine else []
        let header :=
          if beforeFrames.length ≥ 2 &&
              !containsSub ((beforeFrames.get? 0).getD "") ":" then
            ((beforeFrames.get? 0).getD "") ++ ": " ++ ((beforeFrames.get? 1).getD "")
          else if beforeFrames.length ≥ 1 then (beforeFrames.get? 0).getD ""
          else ""
        let rawFrames := parsedFrames.enum.map (fun p => formatFrameAsRaw p.2 p.1)
        some (String.intercalate "\n" ((header :: rawFrames).filter (fun l => !l.isEmpty)))

/-- Leftmost case-insensitive word-bounded literal search (`/\bLIT\b/i` with a
literal that begins and ends with word characters); returns the match index. -/
def searchCIAux (pat : List Char) : Option Char → List Char → Nat → Option Nat
  | _, [], _ => none
  | prev, c :: cs, i =>
    if wordBoundary prev (some c) && ciPrefix pat (c :: cs) &&
        wordBoundary ((c :: cs).take pat.length).getLast?
          ((c :: cs).drop pat.length).head? then
      some i
    else searchCIAux pat (some c) cs (i + 1)

/-- Search wrapper over a string's characters. -/
def searchCI (pat : String) (cs : List Char) : Option Nat :=
  searchCIAux pat.toList none cs 0

/-- Model of `extractStacktraceFromDom`, as a pure function of the flattened
page text (`getPageText` is the oracle that supplies the text). -/
def extractStacktraceFromDomPure (pageText : String) : Option String :=
  let cs := pageText.toList
  match searchCI "Stack Trace" cs with
  | none => none
  | some idx =>
    let sectionChars := cs.drop idx
    let endIndex := ["Session Replay", "Breadcrumbs", "Tags", "Contexts",
        "Event Data", "Additional Data"].foldl
      (fun acc marker =>
        match searchCI marker sectionChars with
        | some mi => if mi > 20 && mi < acc then mi else acc
        | none => acc) sectionChars.length
    let rawSection := String.mk (sectionChars.take endIndex)
    match toRawStacktraceFromSection rawSection with
    | some normalized => if normalized.length < 30 then none else some normalized
    | none => none

/-- Position matcher for `/\bEvent ID:\s*([a-zA-Z0-9]+)/i`. -/
def tryEventIdLabelAt (prev : Option Char) (cs : List Char) : Option String :=
  if wordBoundary prev cs.head? && ciPrefix "Event ID:".toList cs then
    let rest := (cs.drop 9).dropWhile isJsWs
    let run := rest.takeWhile isAlnumCh
    if run.isEmpty then none else some (String.mk run)
  else none

/-- Model of `getEventIdFromDom` as a pure function of the page text. -/
def getEventIdFromDomPure (pageText : String) : Option String :=
  scanFind tryEventIdLabelAt none pageText.toList


/-! ### Specification-side deduplication notions (for comparison) -/

/-- Deduplication as the specification words it: the first occurrence with a
given composite key is kept and every later row with the same key is
dropped.  This definition follows the spec text, for comparison with the
source's `dedupeByKey`. -/
def dedupeFirstWinsSpec {ρ : Type} (key : ρ → String) (rows : List ρ) : List ρ :=
  rows.foldl
    (fun acc r => if acc.any (fun q => key q == key r) then acc else acc ++ [r]) []

/-- Last row of the list carrying the given composite key. -/
def lastByKey {ρ : Type} (key : ρ → String) (k : String) (rows : List ρ) :
    Option ρ :=
  rows.foldl (fun acc r => if key r == k then some r else acc) none

/-- Boolean pairwise-distinctness of a list of keys. -/
def keysNodupB : List String → Bool
  | [] => true
  | k :: ks => !ks.contains k && keysNodupB ks


/-- Concrete network row used to exercise deduplication: shares its composite
key with `crNetB` but differs in the non-key `duration` and `title` fields. -/
def crNetA : NetworkRow :=
  { method := some "GET", status := some 500, host := some "a.com",
    requestUrl := some "https://a.com/x", duration := some "1ms",
    timestamp := none, detailsUrl := none, title := "row one" }

/-- Second concrete network row with the same composite key as `crNetA`. -/
def crNetB : NetworkRow :=
  { crNetA with duration := some "2ms", title := "row two" }


/-! ### Effect-tracked embedding

Everything that touches the live page or the network is modelled in the
monad `M`: a computation receives a logical clock (advanced at every
suspension point), returns a result or a thrown error message, and emits a
trace of `Effect`s.  Browser state is an `Env` of oracles; DOM-reading
subroutines of the source whose internals no claim depends on
(`queryAllEverywhere`-based element scans, `parseReplayFromUrl` applied to
the live `location.href`, tab-element lookups, row-element parsing) appear
as oracle fields, indexed by the clock because the host page re-renders
between polls. -/

inductive ReplaySource where
  | url
  | dom
  | domClick
  | api
deriving DecidableEq, Repr

/-- `ReplayResolution` record of the source. -/
structure ReplayResolution where
  replayId : String
  replayUrl : String
  source : ReplaySource
deriving DecidableEq, Repr

/-- A replay hyperlink discovered in the DOM (`parseReplayFromUrl` result). -/
structure ReplayLink where
  replayId : String
  replayUrl : String
deriving DecidableEq, Repr

/-- The five named Sentry API endpoints the engine can query. -/
inductive ApiEndpoint where
  | replaysList (slug : String)
  | replayDetails (slug rid : String)
  | eventsLatest (slug iid : String)
  | replayEvents (slug : String)
  | recordingSegments (slug projectRef rid : String)
deriving DecidableEq, Repr

/-- Observable browser interactions. -/
inductive Effect where
  | domRead (tag : String)
  | click (tag : String)
  | historyBack
  | wait (ms : Nat)
  | remoteGet (ep : ApiEndpoint)
deriving DecidableEq, Repr

/-- Outcome of one run: result-or-error, effect trace, final clock. -/
structure MOut (α : Type) where
  res : Except String α
  tr : List Effect
  time : Nat

/-- The effect monad. -/
def M (α : Type) : Type := Nat → MOut α

instance : Monad M where
  pure a := fun t => ⟨.ok a, [], t⟩
  bind x f := fun t =>
    match x t with
    | ⟨.ok a, tr1, t1⟩ =>
      let o := f a t1
      ⟨o.res, tr1 ++ o.tr, o.time⟩
    | ⟨.error e, tr1, t1⟩ => ⟨.error e, tr1, t1⟩

/-- Emit one effect. -/
def emitEff (e : Effect) : M Unit := fun t => ⟨.ok (), [e], t⟩

/-- Model of `wait(ms)`: emits the wait and advances the clock. -/
def waitM (ms : Nat) : M Unit := fun t => ⟨.ok (), [Effect.wait ms], t + 1⟩

/-- Read the clock (no effect). -/
def nowM : M Nat := fun t => ⟨.ok t, [], t⟩

/-- Model of `throw new Error(msg)`. -/
def throwM {α : Type} (msg : String) : M α := fun t => ⟨.error msg, [], t⟩

/-- Sentry user record projection. -/
structure SentryUser where
  id : Option String
  username : Option String
  email : Option String
  ip_address : Option String
deriving DecidableEq, Repr

/-- Sentry contexts; the four sub-objects are opaque to the engine (it only
passes them through), so they are modelled as optional opaque values. -/
structure SentryContexts where
  device : Option String
  os : Option String
  browser : Option String
  app : Option String
deriving DecidableEq, Repr

/-- One event tag. -/
structure SentryTag where
  key : Option String
  value : Option String
deriving DecidableEq, Repr

/-- Sentry stack frame. -/
structure SentryFrame where
  raw_function : Option String
  function : Option String
  filename : Option String
  abs_path : Option String
  module : Option String
  lineno : Option Int
  colno : Option Int
deriving DecidableEq, Repr

/-- A `{frames?: ...}` stacktrace holder. -/
structure SentryStacktrace where
  frames : Option (List SentryFrame)
deriving DecidableEq, Repr

/-- One exception value. -/
structure SentryException where
  type : Option String
  value : Option String
  stacktrace : Option SentryStacktrace
  raw_stacktrace : Option SentryStacktrace
deriving DecidableEq, Repr

/-- One event entry; `dataValues` collapses the `entry.data?.values`
optional chain. -/
structure SentryEntry where
  type : Option String
  dataValues : Option (List SentryException)
deriving DecidableEq, Repr

/-- Latest-event record projection. -/
structure SentryEvent where
  eventID : Option String
  title : Option String
  culprit : Option String
  platform : Option String
  user : Option SentryUser
  contexts : Option SentryContexts
  tags : Option (List SentryTag)
  entries : Option (List SentryEntry)
deriving DecidableEq, Repr

/-- A project reference inside a replay record (string, or object with
`id`/`slug`). -/
inductive ProjectField where
  | str (s : String)
  | obj (id : Option String) (slug : Option String)
deriving DecidableEq, Repr

/-- Replay-details record projection; numeric fields arrive stringified. -/
structure SentryReplay where
  count_errors : Option Nat
  error_ids : Option (List String)
  project_id : Option String
  project : Option ProjectField
deriving DecidableEq, Repr

/-- One row of the replays-list API response; `id` is present only when the
JSON field is a string. -/
structure ApiReplayRow where
  id : Option String
deriving DecidableEq, Repr

/-- Browser/page oracles.  Time-indexed fields model DOM state that the host
page may change between polls. -/
structure Env where
  origin : String
  pathname : String
  href : Nat → String
  historyLength : Nat
  domOrgSlug : Option String
  domReplay : Nat → Option ReplayLink
  ctaPresent : Nat → Bool
  hrefReplay : Nat → Option ReplayLink
  errorsTab : Nat → Option Bool
  networkTab : Nat → Option Bool
  errorRows : Nat → List ErrorRow
  errorAnchorRows : Nat → List ErrorRow
  errorTextRows : Nat → List ErrorRow
  networkRows : Nat → List NetworkRow
  pageText : Nat → String
  eventLinks : List (String × String)
  issueLinks : List (String × String)
  issueTitle : Nat → Option String
  domErrorCount : Nat → Option Nat
  domNetworkCount : Nat → Option Nat
  replaysApi : Nat → Except String (List ApiReplayRow)
  replayDetailsForErrors : Nat → Option SentryReplay
  replayDetailsForNetwork : Nat → Option SentryReplay
  errorEventsApi : Nat → List ErrorRow
  segmentRows : Nat → Option (List NetworkRow)
  latestEvent : Nat → Except String SentryEvent

/-- `x || null` for a nullable string. -/
def jsOrNull (o : Option String) : Option String :=
  if jsTruthyS o then o else none

/-- JS `a || b` for nullable arrays (any array, even empty, is truthy). -/
def jsOrArr {α : Type} (a b : Option (List α)) : Option (List α) :=
  match a with
  | some l => some l
  | none => b

/-- Canonical replay URL template
`{origin}/organizations/{slug}/replays/{id}/`. -/
def replayUrlFor (origin slug rid : String) : String :=
  origin ++ "/organizations/" ++ slug ++ "/replays/" ++ rid ++ "/"

/-- The `assertOrganization` error message. -/
def assertOrgMessage : String :=
  "Could not detect Sentry organization from this page URL. Open an issue URL under /organizations/<org>/... for actions that query API."


/-! ### Replay resolution -/

/-- `extractReplayFromDom` as an oracle read: the anchor/CTA scan over the
composite tree is the `domReplay` oracle. -/
def extractReplayFromDomM (env : Env) : M (Option ReplayResolution) := fun t =>
  ⟨.ok ((env.domReplay t).map fun l =>
      { replayId := l.replayId, replayUrl := l.replayUrl, source := .dom }),
    [.domRead "extractReplayFromDom"], t⟩

/-- The bounded poll shape shared by the retry loops that return a single
optional value: call the producer; on success return immediately; otherwise
wait one interval and retry, up to the attempt budget; `none` on
exhaustion. -/
def pollOption {α : Type} (produce : M (Option α)) (intervalMs : Nat) :
    Nat → M (Option α)
  | 0 => pure none
  | n + 1 => do
    let r ← produce
    match r with
    | some v => pure (some v)
    | none => do
      waitM intervalMs
      pollOption produce intervalMs n

/-- Model of `extractReplayFromDomWithRetry`: 8 attempts, 250 ms apart. -/
def extractReplayFromDomWithRetry (env : Env) : M (Option ReplayResolution) :=
  pollOption (extractReplayFromDomM env) 250 8

/-- The polling loop inside `extractReplayByClickingCta` (10 × 200 ms):
wait, then look for a new DOM replay link, then for a navigated URL; if
navigation happened and history depth allows, navigate back. -/
def ctaLoop (env : Env) (beforeUrl : String) : Nat → M (Option ReplayResolution)
  | 0 => pure none
  | n + 1 => do
    waitM 200
    emitEff (.domRead "extractReplayFromDom")
    let t ← nowM
    match env.domReplay t with
    | some link =>
      pure (some ⟨link.replayId, link.replayUrl, ReplaySource.domClick⟩)
    | none =>
      match env.hrefReplay t with
      | some link => do
        if env.href t ≠ beforeUrl ∧ env.historyLength > 1 then
          emitEff .historyBack
        pure (some ⟨link.replayId, link.replayUrl, ReplaySource.domClick⟩)
      | none => ctaLoop env beforeUrl n

/-- Model of `extractReplayByClickingCta`: if any call-to-action element
exists, click the first one and poll. -/
def extractReplayByClickingCta (env : Env) : M (Option ReplayResolution) := do
  emitEff (.domRead "getReplayCtaElements")
  let t ← nowM
  if !env.ctaPresent t then pure none
  else do
    emitEff (.click "cta")
    ctaLoop env (env.href t) 10

/-- States 2–4 of `resolveReplay` (after the url state): dom, dom-click,
then the API escape hatch with its precondition errors. -/
def resolveReplayChain (env : Env) (ctx : PageContext) : M ReplayResolution := do
  let domReplay ← extractReplayFromDomWithRetry env
  match domReplay with
  | some r => pure r
  | none => do
    let clicked ← extractReplayByClickingCta env
    match clicked with
    | some r => pure r
    | none => do
      let organizationSlug :=
        if jsTruthyS ctx.organizationSlug then ctx.organizationSlug else none
      if !jsTruthyS ctx.issueId then throwM "No replay found on this page."
      else
        match organizationSlug with
        | none => throwM "No replay link found in DOM for this issue."
        | some slug => do
          emitEff (.remoteGet (.replaysList slug))
          let t ← nowM
          match env.replaysApi t with
          | .error e => throwM e
          | .ok rows =>
            match rows.head?.bind (fun row => row.id) with
            | some rid =>
              if rid.isEmpty then throwM "No replay is attached to this issue."
              else pure ⟨rid, replayUrlFor ctx.origin slug rid, ReplaySource.api⟩
            | none => throwM "No replay is attached to this issue."

/-- Model of `resolveReplay`.  The url state reads no DOM and issues no
remote call; with no organization slug the replay URL falls back to the
current `location.href`. -/
def resolveReplay (env : Env) (ctx : PageContext) : M ReplayResolution := do
  match ctx.replayId with
  | some rid =>
    if rid.isEmpty then resolveReplayChain env ctx
    else do
      let t ← nowM
      let url :=
        match ctx.organizationSlug with
        | some slug =>
          if slug.isEmpty then env.href t
          else replayUrlFor ctx.origin slug rid
        | none => env.href t
      pure { replayId := rid, replayUrl := url, source := .url }
  | none => resolveReplayChain env ctx

/-! ### Tab activation and row polling -/

/-- Model of `ensureReplayErrorsTabSelected`: the tab element and its active
state are the `errorsTab` oracle; an inactive tab is clicked once, followed
by one settle wait. -/
def ensureReplayErrorsTabSelected (env : Env) : M Unit := do
  emitEff (.domRead "getReplayErrorsTabElement")
  let t ← nowM
  match env.errorsTab t with
  | none => pure ()
  | some active =>
    if active then pure ()
    else do
      emitEff (.click "errors-tab")
      waitM 350

/-- Model of `ensureReplayNetworkTabSelected`. -/
def ensureReplayNetworkTabSelected (env : Env) : M Unit := do
  emitEff (.domRead "getReplayNetworkTabElement")
  let t ← nowM
  match env.networkTab t with
  | none => pure ()
  | some active =>
    if active then pure ()
    else do
      emitEff (.click "network-tab")
      waitM 400

/-- The bounded poll shape shared by the row-extraction retry loops: the
producer merges the strategies; a non-empty merge is post-processed
(deduplicated) and returned immediately; otherwise wait and retry; an empty
collection (not an error) on exhaustion. -/
def pollRows {ρ : Type} (produce : M (List ρ)) (post : List ρ → List ρ)
    (intervalMs : Nat) : Nat → M (List ρ)
  | 0 => pure []
  | n + 1 => do
    let parsed ← produce
    if parsed.isEmpty then do
      waitM intervalMs
      pollRows produce post intervalMs n
    else pure (post parsed)

/-- One attempt of the error-row extraction: the three strategies
(structured rows, anchor-proximity rows, free-text rows), concatenated in
source order.  The parsed row lists are oracles. -/
def produceErrorRows (env : Env) : M (List ErrorRow) := do
  emitEff (.domRead "getReplayErrorRows")
  emitEff (.domRead "getReplayErrorRowsFromAnchors")
  emitEff (.domRead "parseReplayEventsFromPageText")
  let t ← nowM
  pure (env.errorRows t ++ env.errorAnchorRows t ++ env.errorTextRows t)

/-- Model of `getReplayErrorEventsFromDomWithRetry`: ensure the Errors tab,
then poll 12 × 250 ms, deduplicating the merged rows. -/
def getReplayErrorEventsFromDomWithRetry (env : Env) : M (List ErrorRow) := do
  ensureReplayErrorsTabSelected env
  pollRows (produceErrorRows env) dedupeErrorRows 250 12

/-- One attempt of the network-row extraction: structured rows (oracle) and
the free-text parse of the flattened page text (implemented). -/
def produceNetworkRows (env : Env) : M (List NetworkRow) := do
  emitEff (.domRead "getReplayNetworkRows")
  emitEff (.domRead "getPageText")
  let t ← nowM
  pure (env.networkRows t ++ parseReplayNetworkEventsFromPageText (env.pageText t))

/-- Model of `getReplayNetworkEventsFromDomWithRetry`: ensure the Network
tab, then poll 12 × 250 ms, deduplicating the merged rows. -/
def getReplayNetworkEventsFromDomWithRetry (env : Env) : M (List NetworkRow) := do
  ensureReplayNetworkTabSelected env
  pollRows (produceNetworkRows env) dedupeNetworkRows 250 12

/-! ### Remote queries and pure projections -/

/-- Model of `getLatestIssueEvent` (`assertOrganization`, issue-page check,
then the latest-event query). -/
def getLatestIssueEvent (env : Env) (ctx : PageContext) : M SentryEvent := do
  if !jsTruthyS ctx.organizationSlug then throwM assertOrgMessage
  else if !jsTruthyS ctx.issueId then throwM "This action requires an issue page."
  else do
    emitEff (.remoteGet (.eventsLatest (ctx.organizationSlug.getD "")
      (ctx.issueId.getD "")))
    let t ← nowM
    match env.latestEvent t with
    | .ok ev => pure ev
    | .error e => throwM e

/-- Model of `getReplayErrorEvents`: `assertOrganization` throws outside the
try block; the query itself degrades to an empty list on failure (the
oracle already reflects the catch). -/
def getReplayErrorEventsApiM (env : Env) (ctx : PageContext) : M (List ErrorRow) := do
  if !jsTruthyS ctx.organizationSlug then throwM assertOrgMessage
  else do
    emitEff (.remoteGet (.replayEvents (ctx.organizationSlug.getD "")))
    let t ← nowM
    pure (env.errorEventsApi t)

/-- Model of `formatFrame`. -/
def formatFrame (frame : SentryFrame) : String :=
  let fn := (jsOrS frame.raw_function
    (jsOrS frame.function (some "<anonymous>"))).getD "<anonymous>"
  let file := (jsOrS frame.filename (jsOrS frame.abs_path
    (jsOrS frame.module (some "unknown")))).getD "unknown"
  let line := match frame.lineno with | some n => toString n | none => "?"
  let col := match frame.colno with | some n => toString n | none => "?"
  fn ++ " (" ++ file ++ ":" ++ line ++ ":" ++ col ++ ")"

/-- Model of `normalizeFrames`. -/
def normalizeFrames (frames : Option (List SentryFrame)) : String :=
  match frames with
  | none => "(no frames)"
  | some fs =>
    if fs.isEmpty then "(no frames)"
    else String.intercalate "\n" (fs.reverse.map (fun f => "- " ++ formatFrame f))

/-- Model of `getExceptionValues`. -/
def getExceptionValues (event : SentryEvent) : List SentryException :=
  let entries := event.entries.getD []
  match entries.find? (fun e => e.type == some "exception") with
  | some entry => entry.dataValues.getD []
  | none => []

/-- Model of `extractRawStacktrace`. -/
def extractRawStacktrace (event : SentryEvent) : Except String String :=
  let values := getExceptionValues event
  if values.isEmpty then .error "No exception stacktrace found in the latest event."
  else .ok (String.intercalate "\n\n" (values.enum.map (fun p =>
    let exc := p.2
    let header := toString (p.1 + 1) ++ ". " ++
      ((jsOrS exc.type (some "Exception")).getD "Exception") ++
      (match exc.value with
        | some v => if v.isEmpty then "" else ": " ++ v
        | none => "")
    let frames := jsOrArr (exc.raw_stacktrace.bind (fun st => st.frames))
      (exc.stacktrace.bind (fun st => st.frames))
    header ++ "\n" ++ normalizeFrames frames)))

/-- Optional summary line for `buildPrompt`. -/
def promptSummaryItem (o : Option String) (label : String) : List String :=
  match o with
  | some s => if s.isEmpty then [] else [label ++ s]
  | none => []

/-- Model of `buildPrompt`. -/
def buildPrompt (event : SentryEvent) (stacktrace : String) : String :=
  let summaryItems :=
    promptSummaryItem event.title "- Title: " ++
    promptSummaryItem event.eventID "- Event ID: " ++
    promptSummaryItem event.culprit "- Culprit: " ++
    promptSummaryItem event.platform "- Platform: "
  let summary :=
    if summaryItems.isEmpty then "- Context fields unavailable from page/API."
    else String.intercalate "\n" summaryItems
  String.intercalate "\n"
    ["You are a senior software engineer helping debug a Sentry production issue.",
      "", "Issue context:", summary, "", "Raw stacktrace:", stacktrace, "",
      "Tasks:",
      "1. Identify the most likely root cause and why.",
      "2. Suggest the minimum safe fix with implementation notes.",
      "3. Provide 2-3 high-signal checks/tests to validate the fix.",
      "4. Highlight any assumptions or missing telemetry."]

/-- Model of `tagsToRecord` (later tags overwrite earlier ones). -/
def tagsToRecord (tags : Option (List SentryTag)) : List (String × String) :=
  (tags.getD []).foldl
    (fun result tag =>
      match tag.key, tag.value with
      | some k, some v =>
        if !k.isEmpty && !v.isEmpty then mapSet result k v else result
      | _, _ => result) []

/-- Model of `extractProjectRefFromReplayDetails`. -/
def extractProjectRefFromReplayDetails (details : Option SentryReplay) :
    Option String :=
  match details with
  | none => none
  | some d =>
    match d.project_id with
    | some pid => some pid
    | none =>
      match d.project with
      | some (.str s) => some s
      | some (.obj id slug) =>
        (match slug with
          | some s => some s
          | none => match id with | some i => some i | none => none)
      | none => none


/-! ### Action handlers -/

/-- Result of `handleRawStacktracePrompt`. -/
structure StacktraceResult where
  issueTitle : Option String
  eventId : Option String
  source : String
  prompt : String
deriving DecidableEq, Repr

/-- User projection of `handleUserDetails`. -/
structure UserInfo where
  id : Option String
  username : Option String
  email : Option String
  ipAddress : Option String
deriving DecidableEq, Repr

/-- Tag projection of `handleUserDetails`. -/
structure TagsInfo where
  release : Option String
  environment : Option String
  level : Option String
  device : Option String
deriving DecidableEq, Repr

/-- Result of `handleUserDetails`. -/
structure UserDetailsResult where
  issueId : Option String
  eventId : Option String
  user : UserInfo
  device : Option String
  os : Option String
  browser : Option String
  app : Option String
  tags : TagsInfo
deriving DecidableEq, Repr

/-- Error row enriched with `eventUrl`/`issueUrl`. -/
structure ErrorRowWithLinks where
  eventId : Option String
  title : Option String
  issue : Option String
  timestamp : Option String
  eventUrl : Option String
  issueUrl : Option String
deriving DecidableEq, Repr

/-- Debug counters of `handleReplayErrors`. -/
structure ErrDebugInfo where
  domRows : Nat
  domAnchorRows : Nat
  domTextRows : Nat
  eventLinks : Nat
  issueLinks : Nat
deriving DecidableEq, Repr

/-- Result of `handleReplayErrors`. -/
structure ReplayErrorsResult where
  replayId : String
  replayUrl : String
  source : ReplaySource
  shouldOpenReplay : Bool
  totalErrors : Nat
  errorEventIds : List String
  issuesInReplay : List String
  issueLinks : List (String × String)
  replayEvents : List ErrorRowWithLinks
  replayDataSource : String
  debug : ErrDebugInfo
deriving DecidableEq, Repr

/-- Debug counters of `handleReplayNetworkErrors`. -/
structure NetDebugInfo where
  networkRows : Nat
  networkFromText : Nat
  networkFromApi : Nat
  projectRef : Option String
deriving DecidableEq, Repr

/-- Result of `handleReplayNetworkErrors`; the fields present only on one
branch of the handler are optional. -/
structure NetworkErrorsResult where
  replayId : String
  replayUrl : String
  source : ReplaySource
  shouldOpenReplay : Bool
  totalNetworkRequests : Nat
  totalNetworkErrors : Nat
  networkErrors : List NetworkRow
  requestLinks : Option (List String)
  networkDataSource : String
  note : Option String
  debug : Option NetDebugInfo
deriving DecidableEq, Repr

/-- Model of `handleRawStacktracePrompt`: DOM-first, API fallback. -/
def handleRawStacktracePrompt (env : Env) (ctx : PageContext) :
    M StacktraceResult := do
  if ctx.pageType ≠ PageType.issue then
    throwM "Open a Sentry issue page for this action."
  else do
    emitEff (.domRead "getPageText")
    let t ← nowM
    let domStacktrace := extractStacktraceFromDomPure (env.pageText t)
    if jsTruthyS domStacktrace then do
      emitEff (.domRead "getIssueTitleFromDom")
      let t2 ← nowM
      let title := env.issueTitle t2
      emitEff (.domRead "getPageText")
      let t3 ← nowM
      let eventId := getEventIdFromDomPure (env.pageText t3)
      let domEvent : SentryEvent :=
        { eventID := jsOrNull eventId, title := jsOrNull title, culprit := none,
          platform := none, user := none, contexts := none, tags := none,
          entries := none }
      pure { issueTitle := jsOrNull domEvent.title
           , eventId := jsOrNull domEvent.eventID
           , source := "dom"
           , prompt := buildPrompt domEvent (domStacktrace.getD "") }
    else do
      let event ← getLatestIssueEvent env ctx
      match extractRawStacktrace event with
      | .error e => throwM e
      | .ok st =>
        pure { issueTitle := jsOrNull event.title
             , eventId := jsOrNull event.eventID
             , source := "api"
             , prompt := buildPrompt event st }

/-- Model of `handleOpenReplay`. -/
def handleOpenReplay (env : Env) (ctx : PageContext) : M ReplayResolution :=
  resolveReplay env ctx

/-- Model of `handleUserDetails`. -/
def handleUserDetails (env : Env) (ctx : PageContext) : M UserDetailsResult := do
  if ctx.pageType ≠ PageType.issue then
    throwM "Open a Sentry issue page for this action."
  else do
    let event ← getLatestIssueEvent env ctx
    let tags := tagsToRecord event.tags
    pure { issueId := ctx.issueId
         , eventId := jsOrNull event.eventID
         , user :=
           { id := jsOrNull (event.user.bind (fun u => u.id))
           , username := jsOrNull (event.user.bind (fun u => u.username))
           , email := jsOrNull (event.user.bind (fun u => u.email))
           , ipAddress := jsOrNull (event.user.bind (fun u => u.ip_address)) }
         , device := event.contexts.bind (fun c => c.device)
         , os := event.contexts.bind (fun c => c.os)
         , browser := event.contexts.bind (fun c => c.browser)
         , app := event.contexts.bind (fun c => c.app)
         , tags :=
           { release := lookupJs tags "release"
           , environment := lookupJs tags "environment"
           , level := lookupJs tags "level"
           , device := lookupJs tags "device" } }

/-- Link enrichment of one error row (`handleReplayErrors` map step). -/
def addLinks (ctx : PageContext) (organizationSlug : Option String)
    (evLinks isLinks : List (String × String)) (e : ErrorRow) :
    ErrorRowWithLinks :=
  let eventUrl :=
    match e.eventId with
    | some id => lookupJs evLinks id
    | none => none
  let issueUrl0 :=
    match e.issue with
    | some i => lookupJs isLinks i
    | none => none
  let issueUrl :=
    match issueUrl0 with
    | some u => some u
    | none =>
      match organizationSlug, e.issue with
      | some slug, some i =>
        if !slug.isEmpty && !i.isEmpty then
          some (ctx.origin ++ "/organizations/" ++ slug ++ "/issues/?query=" ++
            encodeURIComponentM i)
        else none
      | _, _ => none
  { eventId := e.eventId, title := e.title, issue := e.issue,
    timestamp := e.timestamp, eventUrl := eventUrl, issueUrl := issueUrl }

/-- Splitting of the `issue|||url` pairs collected by `handleReplayErrors`. -/
def splitIssueLink (v : String) : String × String :=
  match jsSplit v "|||" with
  | i :: u :: _ => (i, u)
  | [i] => (i, "")
  | [] => ("", "")

/-- Model of `handleReplayErrors`. -/
def handleReplayErrors (env : Env) (ctx : PageContext) : M ReplayErrorsResult := do
  let replay ← resolveReplay env ctx
  let organizationSlug := jsOrNull ctx.organizationSlug
  let replayDetails ←
    (match organizationSlug with
      | some slug => do
        emitEff (.remoteGet (.replayDetails slug replay.replayId))
        let t ← nowM
        pure (env.replayDetailsForErrors t)
      | none => pure (none : Option SentryReplay))
  let errorIds :=
    match replayDetails with
    | some d => (d.error_ids.getD []).filter (fun s => !s.isEmpty)
    | none => []
  let replayEventsFromDom ← getReplayErrorEventsFromDomWithRetry env
  let replayEventsFromApi ←
    (if organizationSlug.isSome && replayEventsFromDom.isEmpty then
      getReplayErrorEventsApiM env ctx
    else pure [])
  let replayEvents :=
    if !replayEventsFromDom.isEmpty then replayEventsFromDom
    else replayEventsFromApi
  emitEff (.domRead "collectReplayLinkMaps")
  let replayEventsWithLinks :=
    replayEvents.map (addLinks ctx organizationSlug env.eventLinks env.issueLinks)
  let issuesInReplay := dedupFirst
    ((replayEventsWithLinks.filterMap (fun e => e.issue)).filter
      (fun s => !s.isEmpty))
  let eventIdsFromDom :=
    (replayEventsWithLinks.filterMap (fun e => e.eventId)).filter
      (fun s => !s.isEmpty)
  emitEff (.domRead "extractReplayErrorCountFromDom")
  let tc ← nowM
  let domErrorCount := env.domErrorCount tc
  let totalErrors := Nat.max (Nat.max (Nat.max
    (match replayDetails with | some d => d.count_errors.getD 0 | none => 0)
    errorIds.length) (domErrorCount.getD 0)) replayEventsWithLinks.length
  let issueLinksList := (dedupFirst (replayEventsWithLinks.filterMap (fun e =>
    match e.issue, e.issueUrl with
    | some i, some u => some (i ++ "|||" ++ u)
    | _, _ => none))).map splitIssueLink
  emitEff (.domRead "getReplayErrorRows")
  emitEff (.domRead "getReplayErrorRowsFromAnchors")
  emitEff (.domRead "parseReplayEventsFromPageText")
  let td ← nowM
  pure { replayId := replay.replayId
       , replayUrl := replay.replayUrl
       , source := replay.source
       , shouldOpenReplay := decide (ctx.pageType ≠ PageType.replay)
       , totalErrors := totalErrors
       , errorEventIds := if !errorIds.isEmpty then errorIds else eventIdsFromDom
       , issuesInReplay := issuesInReplay
       , issueLinks := issueLinksList
       , replayEvents := replayEventsWithLinks
       , replayDataSource := if !replayEventsFromDom.isEmpty then "dom" else "api"
       , debug :=
         { domRows := (env.errorRows td).length
         , domAnchorRows := (env.errorAnchorRows td).length
         , domTextRows := (env.errorTextRows td).length
         , eventLinks := env.eventLinks.length
         , issueLinks := env.issueLinks.length } }

/-- The early-return record of `handleReplayNetworkErrors` for a
non-replay page. -/
def netEarlyResult (replay : ReplayResolution) : NetworkErrorsResult :=
  { replayId := replay.replayId
  , replayUrl := replay.replayUrl
  , source := replay.source
  , shouldOpenReplay := true
  , totalNetworkRequests := 0
  , totalNetworkErrors := 0
  , networkErrors := []
  , requestLinks := none
  , networkDataSource := "dom"
  , note := some "Replay tab opened. Run this action again on the replay page to extract network errors."
  , debug := none }

/-- Model of `handleReplayNetworkErrors`. -/
def handleReplayNetworkErrors (env : Env) (ctx : PageContext) :
    M NetworkErrorsResult := do
  let replay ← resolveReplay env ctx
  let organizationSlug := jsOrNull ctx.organizationSlug
  if ctx.pageType ≠ PageType.replay then
    pure (netEarlyResult replay)
  else do
    let replayDetails ←
      (match organizationSlug with
        | some slug => do
          emitEff (.remoteGet (.replayDetails slug replay.replayId))
          let t ← nowM
          pure (env.replayDetailsForNetwork t)
        | none => pure (none : Option SentryReplay))
    let networkRequestsFromDom ← getReplayNetworkEventsFromDomWithRetry env
    let projectRef := extractProjectRefFromReplayDetails replayDetails
    let networkRequestsFromApi ←
      (match organizationSlug, projectRef with
        | some slug, some pr =>
          if networkRequestsFromDom.isEmpty && !pr.isEmpty then do
            emitEff (.remoteGet (.recordingSegments slug pr replay.replayId))
            let t ← nowM
            pure (match env.segmentRows t with
              | some rows => dedupeNetworkRows rows
              | none => [])
          else pure []
        | _, _ => pure [])
    let networkRequests :=
      if !networkRequestsFromDom.isEmpty then networkRequestsFromDom
      else networkRequestsFromApi
    let networkErrors := networkRequests.filter isNetworkErrorEntry
    emitEff (.domRead "extractReplayNetworkCountFromDom")
    let tc ← nowM
    let totalNetworkRequests :=
      Nat.max ((env.domNetworkCount tc).getD 0) networkRequests.length
    let requestLinks := dedupFirst ((networkErrors.filterMap (fun row =>
      match row.detailsUrl with
      | some u => some u
      | none => row.requestUrl)).filter (fun s => !s.isEmpty))
    emitEff (.domRead "getReplayNetworkRows")
    emitEff (.domRead "getPageText")
    let td ← nowM
    pure { replayId := replay.replayId
         , replayUrl := replay.replayUrl
         , source := replay.source
         , shouldOpenReplay := false
         , totalNetworkRequests := totalNetworkRequests
         , totalNetworkErrors := networkErrors.length
         , networkErrors := networkErrors
         , requestLinks := some requestLinks
         , networkDataSource :=
           if !networkRequestsFromDom.isEmpty then "dom" else "api-segments"
         , note := none
         , debug := some (NetDebugInfo.mk (env.networkRows td).length
             (parseReplayNetworkEventsFromPageText (env.pageText td)).length
             networkRequestsFromApi.length (jsOrNull projectRef)) }

/-! ### Action dispatch and the response envelope -/

/-- The five named actions. -/
inductive NizoAction where
  | getRawStacktracePrompt
  | openReplay
  | getUserDetails
  | getReplayErrors
  | getReplayNetworkErrors
deriving DecidableEq, Repr

/-- Dispatched action results. -/
inductive ActionData where
  | stacktrace (r : StacktraceResult)
  | replay (r : ReplayResolution)
  | user (r : UserDetailsResult)
  | errors (r : ReplayErrorsResult)
  | network (r : NetworkErrorsResult)
deriving DecidableEq, Repr

/-- Model of `runAction`: derive the page context fresh, then dispatch. -/
def runActionM (a : NizoAction) (env : Env) : M ActionData := do
  emitEff (.domRead "getPageContext")
  let ctx := getPageContext env.origin env.pathname env.domOrgSlug
  match a with
  | .getRawStacktracePrompt => do
    let r ← handleRawStacktracePrompt env ctx
    pure (ActionData.stacktrace r)
  | .openReplay => do
    let r ← handleOpenReplay env ctx
    pure (ActionData.replay r)
  | .getUserDetails => do
    let r ← handleUserDetails env ctx
    pure (ActionData.user r)
  | .getReplayErrors => do
    let r ← handleReplayErrors env ctx
    pure (ActionData.errors r)
  | .getReplayNetworkErrors => do
    let r ← handleReplayNetworkErrors env ctx
    pure (ActionData.network r)

/-- The `{ok, error?, data?}` envelope of the message listener. -/
structure Response where
  ok : Bool
  error : Option String
  data : Option ActionData
deriving DecidableEq, Repr

/-- Model of the `chrome.runtime.onMessage` listener around `runAction`:
success becomes `{ok: true, data}`, a thrown error becomes
`{ok: false, error: message}`. -/
def respond (x : M ActionData) (t : Nat) : Response :=
  match x t with
  | ⟨.ok d, _, _⟩ => ⟨true, none, some d⟩
  | ⟨.error e, _, _⟩ => ⟨false, some e, none⟩


/-! ### Trace observation helpers -/

/-- Click test on effects. -/
def isClickEff : Effect → Bool
  | .click _ => true
  | _ => false

/-- The click effects of a trace. -/
def clicksOf (tr : List Effect) : List Effect :=
  tr.filter isClickEff

/-- Number of occurrences of one effect in a trace. -/
def countEff (e : Effect) (tr : List Effect) : Nat :=
  (tr.filter (fun x => x == e)).length

/-- Effects whose click component is one of the engine's three click sites
(every non-click effect passes). -/
def clickOkEff : Effect → Bool
  | .click tag => tag == "cta" || tag == "errors-tab" || tag == "network-tab"
  | _ => true

/-- Effect alphabet of replay resolution: its own DOM reads, the single CTA
click, a possible history navigation, its waits, and the replays-list
query. -/
def resolveEff : Effect → Bool
  | .domRead tag => tag == "extractReplayFromDom" || tag == "getReplayCtaElements"
  | .click tag => tag == "cta"
  | .historyBack => true
  | .wait ms => ms == 250 || ms == 200
  | .remoteGet (.replaysList _) => true
  | .remoteGet _ => false

/-- The recording-segments remote query. -/
def isRecordingSegmentsGet : Effect → Bool
  | .remoteGet (.recordingSegments _ _ _) => true
  | _ => false

/-- The network-tab DOM row extraction read. -/
def isNetworkRowsRead : Effect → Bool
  | .domRead tag => tag == "getReplayNetworkRows"
  | _ => false

/-- Trace of a polling loop's failed attempts: the producer's per-attempt
effects followed by one wait, repeated. -/
def rowsTrace (ptr : List Effect) (ivl : Nat) : Nat → List Effect
  | 0 => []
  | n + 1 => ptr ++ Effect.wait ivl :: rowsTrace ptr ivl n

/-- Per-attempt effects of the error-row producer. -/
def errMarks : List Effect :=
  [.domRead "getReplayErrorRows", .domRead "getReplayErrorRowsFromAnchors",
    .domRead "parseReplayEventsFromPageText"]

/-- Per-attempt effects of the network-row producer. -/
def netMarks : List Effect :=
  [.domRead "getReplayNetworkRows", .domRead "getPageText"]

/-- The merged strategy output of one error-row attempt at a given time. -/
def gErr (env : Env) (t : Nat) : List ErrorRow :=
  env.errorRows t ++ env.errorAnchorRows t ++ env.errorTextRows t

/-- The merged strategy output of one network-row attempt at a given time. -/
def gNet (env : Env) (t : Nat) : List NetworkRow :=
  env.networkRows t ++ parseReplayNetworkEventsFromPageText (env.pageText t)

/-- Bounded effect profile of a computation: every emitted effect satisfies
the alphabet predicate, and each of the three click effects occurs at most
the given number of times, at every start time. -/
def EffectProfile {α : Type} (x : M α) (allow : Effect → Bool)
    (nc ne nn : Nat) : Prop :=
  ∀ t, ((x t).tr.all allow = true) ∧
    countEff (Effect.click "cta") (x t).tr ≤ nc ∧
    countEff (Effect.click "errors-tab") (x t).tr ≤ ne ∧
    countEff (Effect.click "network-tab") (x t).tr ≤ nn


/-- A DOM replay link viewed as a `dom`-source resolution. -/
def domLinkToRes (l : ReplayLink) : ReplayResolution :=
  ⟨l.replayId, l.replayUrl, ReplaySource.dom⟩

/-- The per-attempt result of the replay-link producing step. -/
def fDom (env : Env) (u : Nat) : Option ReplayResolution :=
  (env.domReplay u).map domLinkToRes


/-- A quiescent concrete environment: nothing in the DOM, every oracle
empty.  Concrete test environments below override single fields. -/
def envBase : Env :=
  { origin := "https://sentry.io"
  , pathname := "/replays/abc"
  , href := fun _ => "https://sentry.io/replays/abc"
  , historyLength := 1
  , domOrgSlug := none
  , domReplay := fun _ => none
  , ctaPresent := fun _ => false
  , hrefReplay := fun _ => none
  , errorsTab := fun _ => none
  , networkTab := fun _ => none
  , errorRows := fun _ => []
  , errorAnchorRows := fun _ => []
  , errorTextRows := fun _ => []
  , networkRows := fun _ => []
  , pageText := fun _ => ""
  , eventLinks := []
  , issueLinks := []
  , issueTitle := fun _ => none
  , domErrorCount := fun _ => none
  , domNetworkCount := fun _ => none
  , replaysApi := fun _ => .ok []
  , replayDetailsForErrors := fun _ => none
  , replayDetailsForNetwork := fun _ => none
  , errorEventsApi := fun _ => []
  , segmentRows := fun _ => none
  , latestEvent := fun _ => .error "unused" }

/-- Environment whose error-row strategies are empty on the first three
attempts and non-empty afterwards (the polling claim's scenario). -/
def pollEnvWitness : Env :=
  { envBase with errorRows := fun t =>
      if t < 3 then [] else [⟨some "deadbeef01", some "Boom", none, none⟩] }

/-- The URL value produced by the url resolution state. -/
def resolveUrlValue (env : Env) (ctx : PageContext) (rid : String) (t : Nat) :
    String :=
  match ctx.organizationSlug with
  | some slug =>
    if slug.isEmpty then env.href t else replayUrlFor ctx.origin slug rid
  | none => env.href t

/-- A page context carrying a replay id but no organization slug. -/
def ctxUrlNoSlug : PageContext :=
  ⟨"https://acme.sentry.io", none, none, some "abc123", PageType.replay⟩

/-- A page context carrying both a replay id and an organization slug. -/
def ctxUrlSlug : PageContext :=
  ⟨"https://acme.sentry.io", some "acme", none, some "abc123", PageType.replay⟩

/-- Environment on the corresponding replay page. -/
def envUrlPage : Env :=
  { envBase with
    origin := "https://acme.sentry.io",
    pathname := "/replays/abc123",
    href := fun _ => "https://acme.sentry.io/replays/abc123" }


/-- Environment of a page with no issue, no replay and no DOM links. -/
def envNoContext : Env :=
  { envBase with pathname := "/", href := fun _ => "https://sentry.io/" }

/-- Environment of a bare `/issues/123` page with no organization slug and
no DOM replay links. -/
def envIssueNoOrg : Env :=
  { envBase with
    pathname := "/issues/123",
    href := fun _ => "https://sentry.io/issues/123" }

/-- Environment of a replay page whose Errors tab exists and is inactive,
so that row extraction must activate it with a tab click. -/
def envTabClick : Env :=
  { envBase with errorsTab := fun _ => some false }

/-- Environment of an issue page carrying a replay link in the DOM. -/
def envNetEarly : Env :=
  { envBase with
    pathname := "/issues/123",
    href := fun _ => "https://sentry.io/issues/123",
    domReplay := fun _ => some ⟨"r1", "https://sentry.io/replays/r1/"⟩ }

/-- The non-CTA click effects of a trace. -/
def nonCtaClicks (tr : List Effect) : List Effect :=
  tr.filter (fun e => isClickEff e && !(e == Effect.click "cta"))

/-! ## Theorems -/

/-- C2.  For every page URL (origin, pathname) and every DOM-derived
organization slug, the context computed by `getPageContext` satisfies the
invariant: on an issue page `issueId` is non-null and `replayId` null, on a
replay page `replayId` is non-null and `issueId` null, and on any other
page both are null. -/
theorem getPageContext_invariant (origin pathname : String)
    (domOrgSlug : Option String) :
    pageContextInvariant (getPageContext origin pathname domOrgSlug) = true := by
  unfold getPageContext
  dsimp only
  split
  · rename_i h
    cases hi : firstPathMatch pathname.toList
      [orgSectionCapPat "issues".toList, rootSectionCapPat "issues".toList,
        segSectionCapPat "issues".toList] with
    | none => rw [hi] at h; simp [jsTruthyS] at h
    | some v => rfl
  · split
    · rename_i h
      cases hr : firstPathMatch pathname.toList
        [orgSectionCapPat "replays".toList, rootSectionCapPat "replays".toList,
          segSectionCapPat "replays".toList] with
      | none => rw [hr] at h; simp [jsTruthyS] at h
      | some v => rfl
    · split
      · rfl
      · split
        · rfl
        · rfl

/-! ### Deduplication lemmas -/

theorem strBeqComm (a b : String) : (a == b) = (b == a) := by
  by_cases h : a = b
  · subst h; rfl
  · have h1 : (a == b) = false := by
      simpa using h
    have h2 : (b == a) = false := by
      have : ¬b = a := fun he => h he.symm
      simpa using this
    rw [h1, h2]

theorem mapSet_mem {ρ : Type} {m : List (String × ρ)} {k : String} {v p} :
    p ∈ mapSet m k v → p = (k, v) ∨ (p ∈ m ∧ p.1 ≠ k) := by
  unfold mapSet
  split
  · intro hp
    obtain ⟨q, hq, hpq⟩ := List.mem_map.1 hp
    by_cases h : q.1 == k
    · left; rw [← hpq]; simp [h]
    · right
      simp only [h, Bool.false_eq_true, ite_false] at hpq
      subst hpq
      exact ⟨hq, by simpa using h⟩
  · rename_i hany
    intro hp
    rcases List.mem_append.1 hp with h | h
    · right
      refine ⟨h, fun hk => hany ?_⟩
      exact List.any_eq_true.2 ⟨p, h, by simp [hk]⟩
    · left; simpa using h

theorem mapSet_keys {ρ : Type} (m : List (String × ρ)) (k : String) (v : ρ) :
    (mapSet m k v).map (fun p => p.1) =
      if m.any (fun p => p.1 == k) then m.map (fun p => p.1)
      else m.map (fun p => p.1) ++ [k] := by
  unfold mapSet
  split <;> rename_i hany
  · rw [List.map_map]
    refine List.map_congr_left fun p _ => ?_
    by_cases h : p.1 = k <;> simp [h]
  · simp

theorem contains_map_fst {ρ : Type} (m : List (String × ρ)) (k : String) :
    (m.map (fun p => p.1)).contains k = m.any (fun p => p.1 == k) := by
  induction m with
  | nil => rfl
  | cons p rest ih =>
    simp only [List.map_cons, List.contains_cons, List.any_cons, ih]
    rw [strBeqComm]

theorem contains_append_one (l : List String) (k x : String) :
    (l ++ [k]).contains x = (l.contains x || x == k) := by
  induction l with
  | nil =>
    by_cases h : x = k <;> simp [List.contains_cons, h]
  | cons a as ih =>
    simp only [List.cons_append, List.contains_cons, ih, Bool.or_assoc]

theorem keysNodupB_append_new {l : List String} {k : String}
    (h : keysNodupB l = true) (hk : l.contains k = false) :
    keysNodupB (l ++ [k]) = true := by
  induction l with
  | nil => rfl
  | cons x xs ih =>
    simp only [keysNodupB, Bool.and_eq_true, Bool.not_eq_true'] at h
    simp only [List.contains_cons, Bool.or_eq_false_iff] at hk
    simp only [List.cons_append, keysNodupB, Bool.and_eq_true, Bool.not_eq_true']
    refine ⟨?_, ih h.2 hk.2⟩
    have hx : (xs ++ [k]).contains x = (xs.contains x || x == k) :=
      contains_append_one xs k x
    show (xs ++ [k]).contains x = false
    rw [hx]
    simp only [Bool.or_eq_false_iff]
    exact ⟨h.1, by rw [strBeqComm]; exact hk.1⟩

theorem fold_fst_eq_key {ρ : Type} (key : ρ → String) :
    ∀ (rows : List ρ) (m : List (String × ρ)),
      (∀ p ∈ m, p.1 = key p.2) →
      ∀ p ∈ rows.foldl (fun m r => mapSet m (key r) r) m, p.1 = key p.2 := by
  intro rows
  induction rows with
  | nil => intro m hm p hp; exact hm p hp
  | cons r rest ih =>
    intro m hm p hp
    refine ih (mapSet m (key r) r) ?_ p hp
    intro q hq
    rcases mapSet_mem hq with h | h
    · subst h; rfl
    · exact hm q h.1

theorem fold_keys_nodup {ρ : Type} (key : ρ → String) :
    ∀ (rows : List ρ) (m : List (String × ρ)),
      keysNodupB (m.map (fun p => p.1)) = true →
      keysNodupB
        ((rows.foldl (fun m r => mapSet m (key r) r) m).map (fun p => p.1)) =
        true := by
  intro rows
  induction rows with
  | nil => intro m hm; exact hm
  | cons r rest ih =>
    intro m hm
    refine ih (mapSet m (key r) r) ?_
    rw [mapSet_keys]
    split <;> rename_i hany
    · exact hm
    · refine keysNodupB_append_new hm ?_
      rw [contains_map_fst]
      exact Bool.eq_false_iff.mpr hany

theorem fold_keys_eq {ρ : Type} (key : ρ → String) :
    ∀ (rows : List ρ) (m : List (String × ρ)),
      (rows.foldl (fun m r => mapSet m (key r) r) m).map (fun p => p.1) =
        rows.foldl
          (fun acc r => if acc.contains (key r) then acc else acc ++ [key r])
          (m.map (fun p => p.1)) := by
  intro rows
  induction rows with
  | nil => intro m; rfl
  | cons r rest ih =>
    intro m
    simp only [List.foldl_cons]
    rw [ih (mapSet m (key r) r), mapSet_keys, contains_map_fst]

theorem lastFold_init {ρ : Type} (f : Option ρ → ρ → Option ρ)
    (hf : ∀ init r, f init r = match f none r with
      | some v => some v
      | none => init) :
    ∀ (rest : List ρ) (init : Option ρ),
      rest.foldl f init = match rest.foldl f none with
        | some v => some v
        | none => init := by
  intro rest
  induction rest with
  | nil => intro init; rfl
  | cons x xs ih =>
    intro init
    simp only [List.foldl_cons]
    rw [ih (f init x), ih (f none x)]
    cases hxs : xs.foldl f none with
    | some v => rfl
    | none =>
      simp only
      exact hf init x

theorem lastByKey_cons {ρ : Type} (key : ρ → String) (k : String) (r : ρ)
    (rest : List ρ) :
    lastByKey key k (r :: rest) = match lastByKey key k rest with
      | some v => some v
      | none => if key r == k then some r else none := by
  unfold lastByKey
  simp only [List.foldl_cons]
  exact lastFold_init _ (fun init r => by by_cases h : key r == k <;> simp [h]) rest _

theorem fold_values_last {ρ : Type} (key : ρ → String) :
    ∀ (rows : List ρ) (m : List (String × ρ)) (p : String × ρ),
      p ∈ rows.foldl (fun m r => mapSet m (key r) r) m →
      (p ∈ m ∧ lastByKey key p.1 rows = none) ∨
        lastByKey key p.1 rows = some p.2 := by
  intro rows
  induction rows with
  | nil =>
    intro m p hp
    exact Or.inl ⟨hp, rfl⟩
  | cons r rest ih =>
    intro m p hp
    rcases ih (mapSet m (key r) r) p hp with ⟨hpm, hnone⟩ | hlast
    · rcases mapSet_mem hpm with h | ⟨hpm2, hne⟩
      · right
        rw [lastByKey_cons, hnone]
        subst h
        simp
      · left
        refine ⟨hpm2, ?_⟩
        rw [lastByKey_cons, hnone]
        have : (key r == p.1) = false := by
          have : ¬key r = p.1 := fun he => hne he.symm
          simpa using this
        simp [this]
    · right
      rw [lastByKey_cons, hlast]

theorem dedupeByKey_map_key_fst {ρ : Type} (key : ρ → String) (rows : List ρ) :
    (dedupeByKey key rows).map key =
      (rows.foldl (fun m r => mapSet m (key r) r) []).map (fun p => p.1) := by
  unfold dedupeByKey
  rw [List.map_map]
  exact List.map_congr_left fun p hp =>
    (fold_fst_eq_key key rows [] (by simp) p hp).symm

theorem dedupeByKey_map_key_eq {ρ : Type} (key : ρ → String) (rows : List ρ) :
    (dedupeByKey key rows).map key = dedupFirst (rows.map key) := by
  rw [dedupeByKey_map_key_fst, fold_keys_eq]
  unfold dedupFirst
  rw [List.foldl_map]
  rfl

theorem dedupeByKey_mem_last {ρ : Type} (key : ρ → String) (rows : List ρ)
    (r : ρ) (hr : r ∈ dedupeByKey key rows) :
    lastByKey key (key r) rows = some r := by
  unfold dedupeByKey at hr
  obtain ⟨p, hp, hpr⟩ := List.mem_map.1 hr
  have hfst : p.1 = key p.2 := fold_fst_eq_key key rows [] (by simp) p hp
  rcases fold_values_last key rows [] p hp with ⟨habs, _⟩ | hlast
  · exact absurd habs (List.not_mem_nil p)
  · rw [← hpr, ← hfst]
    exact hlast

theorem dedupeByKey_keys_nodup {ρ : Type} (key : ρ → String) (rows : List ρ) :
    keysNodupB ((dedupeByKey key rows).map key) = true := by
  rw [dedupeByKey_map_key_fst]
  exact fold_keys_nodup key rows [] rfl

/-- C9.  After the merge-and-deduplicate step (for network rows and for error
rows), any two distinct retained rows have different composite keys: the list
of composite keys of the returned collection is pairwise distinct. -/
theorem dedupe_keys_pairwise_distinct (rowsN : List NetworkRow)
    (rowsE : List ErrorRow) :
    keysNodupB ((dedupeNetworkRows rowsN).map netKey) = true ∧
    keysNodupB ((dedupeErrorRows rowsE).map errKey) = true :=
  ⟨dedupeByKey_keys_nodup netKey rowsN, dedupeByKey_keys_nodup errKey rowsE⟩

/-- C1 (amended).  The merge-and-deduplicate step keys each row by the join
of its identifying fields in a fixed order, and insertion order decides the
position of each key (first occurrence); but the stored row is overwritten
by each later duplicate, so the LAST occurrence's non-key fields win.
Stated for both row kinds: the retained key sequence equals the
first-occurrence deduplication of the input key sequence, and every retained
row is the last input row bearing its composite key. -/
theorem dedupe_insertion_order_last_wins (rowsN : List NetworkRow)
    (rowsE : List ErrorRow) :
    ((dedupeNetworkRows rowsN).map netKey = dedupFirst (rowsN.map netKey) ∧
      ∀ r ∈ dedupeNetworkRows rowsN, lastByKey netKey (netKey r) rowsN = some r) ∧
    ((dedupeErrorRows rowsE).map errKey = dedupFirst (rowsE.map errKey) ∧
      ∀ r ∈ dedupeErrorRows rowsE, lastByKey errKey (errKey r) rowsE = some r) :=
  ⟨⟨dedupeByKey_map_key_eq netKey rowsN,
      fun r hr => dedupeByKey_mem_last netKey rowsN r hr⟩,
    ⟨dedupeByKey_map_key_eq errKey rowsE,
      fun r hr => dedupeByKey_mem_last errKey rowsE r hr⟩⟩

/-- Witness for C1 (amended): on the concrete duplicate pair, the key list is
the single shared key and the retained row is the last occurrence. -/
theorem dedupe_insertion_order_last_wins_witness :
    (dedupeNetworkRows [crNetA, crNetB]).map netKey =
      dedupFirst ([crNetA, crNetB].map netKey) ∧
    lastByKey netKey (netKey crNetB) [crNetA, crNetB] = some crNetB :=
  ⟨(dedupe_insertion_order_last_wins [crNetA, crNetB] []).1.1,
    (dedupe_insertion_order_last_wins [crNetA, crNetB] []).1.2 crNetB (by decide)⟩

/-- C1 counterexample: for two network rows sharing a composite key but
differing in the non-key `duration`/`title` fields, the source's
deduplication keeps the LAST row's fields, while the claim ("first
occurrence kept, later duplicates dropped, their non-key fields never
appear") predicts the first: the two disagree on this concrete input. -/
theorem dedupe_first_wins_counterexample :
    dedupeNetworkRows [crNetA, crNetB] = [crNetB] ∧
    dedupeFirstWinsSpec netKey [crNetA, crNetB] = [crNetA] ∧
    netKey crNetA = netKey crNetB ∧
    crNetB.duration ≠ crNetA.duration ∧
    dedupeNetworkRows [crNetA, crNetB] ≠
      dedupeFirstWinsSpec netKey [crNetA, crNetB] := by
  refine ⟨by decide, by decide, by decide, by decide, by decide⟩

/-- C7.  The network row text
`"POST 503 https://api.example.com/v1/charge 842ms"` is extracted to exactly
the claimed row, and that row is classified as a network error because its
status 503 is at least 400. -/
theorem network_row_extraction_example :
    parseReplayNetworkEventsFromPageText
        "POST 503 https://api.example.com/v1/charge 842ms" =
      [{ method := some "POST", status := some 503,
         host := some "api.example.com",
         requestUrl := some "https://api.example.com/v1/charge",
         duration := some "842ms", timestamp := none, detailsUrl := none,
         title := "POST 503 https://api.example.com/v1/charge 842ms" }] ∧
    isNetworkErrorEntry
        { method := some "POST", status := some 503,
          host := some "api.example.com",
          requestUrl := some "https://api.example.com/v1/charge",
          duration := some "842ms", timestamp := none, detailsUrl := none,
          title := "POST 503 https://api.example.com/v1/charge 842ms" } = true ∧
    ((503 : Int) ≥ 400) :=
  ⟨by decide, by decide, by decide⟩

/-- C8.  For the section text `"Stack Trace"`, `"foo.js in handleClick at
line 42"`, `"bar.js in onSubmit at line 10 within FormModule"`, the
normalized stack trace lists the first encountered pretty frame first:
frame 0 is `handleClick (foo.js:42)` and frame 1 is
`onSubmit (package:FormModule/bar.js:10)` with its module qualifier; the
`onSubmit` frame never precedes the `handleClick` frame. -/
theorem stacktrace_normalization_example :
    toRawStacktraceFromSection
        "Stack Trace\nfoo.js in handleClick at line 42\nbar.js in onSubmit at line 10 within FormModule" =
      some ("  #0      handleClick (foo.js:42)" ++ "\n" ++
        "  #1      onSubmit (package:FormModule/bar.js:10)") ∧
    parseFrameFromPrettyLine "foo.js in handleClick at line 42" =
      some { functionName := "handleClick", file := "foo.js", lineNo := "42",
             moduleName := none } ∧
    parseFrameFromPrettyLine "bar.js in onSubmit at line 10 within FormModule" =
      some { functionName := "onSubmit", file := "bar.js", lineNo := "10",
             moduleName := some "FormModule" } :=
  ⟨by decide, by decide, by decide⟩

/-! ### Monad run lemmas -/

@[simp] theorem bind_run {α β : Type} (x : M α) (f : α → M β) (t : Nat) :
    (x >>= f) t = match x t with
      | ⟨.ok a, tr1, t1⟩ => ⟨(f a t1).res, tr1 ++ (f a t1).tr, (f a t1).time⟩
      | ⟨.error e, tr1, t1⟩ => ⟨.error e, tr1, t1⟩ := rfl

@[simp] theorem pure_run {α : Type} (a : α) (t : Nat) :
    (pure a : M α) t = ⟨.ok a, [], t⟩ := rfl

@[simp] theorem emitEff_run (e : Effect) (t : Nat) :
    emitEff e t = ⟨.ok (), [e], t⟩ := rfl

@[simp] theorem waitM_run (ms t : Nat) :
    waitM ms t = ⟨.ok (), [Effect.wait ms], t + 1⟩ := rfl

@[simp] theorem nowM_run (t : Nat) : nowM t = ⟨.ok t, [], t⟩ := rfl

@[simp] theorem throwM_run {α : Type} (msg : String) (t : Nat) :
    (throwM msg : M α) t = ⟨.error msg, [], t⟩ := rfl

theorem countEff_append (e : Effect) (a b : List Effect) :
    countEff e (a ++ b) = countEff e a + countEff e b := by
  unfold countEff
  rw [List.filter_append, List.length_append]

/-! ### Polling loop lemmas -/

theorem pollOption_all_none {α : Type} (produce : M (Option α))
    (f : Nat → Option α) (ptr : List Effect)
    (hprod : ∀ u, produce u = ⟨.ok (f u), ptr, u⟩) (ivl : Nat) :
    ∀ (n : Nat) (t : Nat), (∀ j < n, f (t + j) = none) →
      pollOption produce ivl n t = ⟨.ok none, rowsTrace ptr ivl n, t + n⟩ := by
  intro n
  induction n with
  | zero => intro t _; rfl
  | succ n ih =>
    intro t h
    have h0 : f t = none := by simpa using h 0 (Nat.succ_pos n)
    show (produce >>= fun r => match r with
      | some v => pure (some v)
      | none => waitM ivl >>= fun _ => pollOption produce ivl n) t = _
    rw [bind_run, hprod t, h0]
    have hrec := ih (t + 1) (fun j hj => by
      have := h (j + 1) (Nat.succ_lt_succ hj)
      simpa [Nat.add_assoc, Nat.add_comm 1 j] using this)
    simp only [bind_run, waitM_run, hrec]
    simp [rowsTrace, Nat.add_assoc, Nat.add_comm 1 n]

theorem pollOption_first_some {α : Type} (produce : M (Option α))
    (f : Nat → Option α) (ptr : List Effect)
    (hprod : ∀ u, produce u = ⟨.ok (f u), ptr, u⟩) (ivl : Nat) :
    ∀ (k n t : Nat) (v : α), k < n → (∀ j < k, f (t + j) = none) →
      f (t + k) = some v →
      pollOption produce ivl n t =
        ⟨.ok (some v), rowsTrace ptr ivl k ++ ptr, t + k⟩ := by
  intro k
  induction k with
  | zero =>
    intro n t v hn _ hk
    obtain ⟨n', rfl⟩ : ∃ n', n = n' + 1 :=
      ⟨n - 1, (Nat.succ_pred_eq_of_pos hn).symm⟩
    show (produce >>= fun r => match r with
      | some w => pure (some w)
      | none => waitM ivl >>= fun _ => pollOption produce ivl n') t = _
    rw [bind_run, hprod t]
    simp only [Nat.add_zero] at hk
    rw [hk]
    simp [rowsTrace]
  | succ k ih =>
    intro n t v hn h0 hk
    obtain ⟨n', rfl⟩ : ∃ n', n = n' + 1 :=
      ⟨n - 1, (Nat.succ_pred_eq_of_pos (Nat.lt_of_le_of_lt (Nat.zero_le _) hn)).symm⟩
    have hf0 : f t = none := by simpa using h0 0 (Nat.succ_pos k)
    show (produce >>= fun r => match r with
      | some w => pure (some w)
      | none => waitM ivl >>= fun _ => pollOption produce ivl n') t = _
    rw [bind_run, hprod t, hf0]
    have hrec := ih n' (t + 1) v (Nat.lt_of_succ_lt_succ hn)
      (fun j hj => by
        have := h0 (j + 1) (Nat.succ_lt_succ hj)
        simpa [Nat.add_assoc, Nat.add_comm 1 j] using this)
      (by simpa [Nat.add_assoc, Nat.add_comm 1 k] using hk)
    simp only [bind_run, waitM_run, hrec]
    simp [rowsTrace, Nat.add_assoc, Nat.add_comm 1 k]

theorem pollRows_all_empty {ρ : Type} (produce : M (List ρ))
    (f : Nat → List ρ) (ptr : List Effect)
    (hprod : ∀ u, produce u = ⟨.ok (f u), ptr, u⟩)
    (post : List ρ → List ρ) (ivl : Nat) :
    ∀ (n t : Nat), (∀ j < n, f (t + j) = []) →
      pollRows produce post ivl n t = ⟨.ok [], rowsTrace ptr ivl n, t + n⟩ := by
  intro n
  induction n with
  | zero => intro t _; rfl
  | succ n ih =>
    intro t h
    have h0 : f t = [] := by simpa using h 0 (Nat.succ_pos n)
    show (produce >>= fun parsed =>
      if parsed.isEmpty then waitM ivl >>= fun _ => pollRows produce post ivl n
      else pure (post parsed)) t = _
    rw [bind_run, hprod t, h0]
    have hrec := ih (t + 1) (fun j hj => by
      have := h (j + 1) (Nat.succ_lt_succ hj)
      simpa [Nat.add_assoc, Nat.add_comm 1 j] using this)
    simp only [List.isEmpty_nil, if_true, bind_run, waitM_run, hrec]
    simp [rowsTrace, Nat.add_assoc, Nat.add_comm 1 n]

theorem pollRows_first_nonempty {ρ : Type} (produce : M (List ρ))
    (f : Nat → List ρ) (ptr : List Effect)
    (hprod : ∀ u, produce u = ⟨.ok (f u), ptr, u⟩)
    (post : List ρ → List ρ) (ivl : Nat) :
    ∀ (k n t : Nat), k < n → (∀ j < k, f (t + j) = []) → f (t + k) ≠ [] →
      pollRows produce post ivl n t =
        ⟨.ok (post (f (t + k))), rowsTrace ptr ivl k ++ ptr, t + k⟩ := by
  intro k
  induction k with
  | zero =>
    intro n t hn _ hk
    obtain ⟨n', rfl⟩ : ∃ n', n = n' + 1 :=
      ⟨n - 1, (Nat.succ_pred_eq_of_pos hn).symm⟩
    show (produce >>= fun parsed =>
      if parsed.isEmpty then waitM ivl >>= fun _ => pollRows produce post ivl n'
      else pure (post parsed)) t = _
    rw [bind_run, hprod t]
    simp only [Nat.add_zero] at hk ⊢
    rw [if_neg (by simpa [List.isEmpty_iff] using hk)]
    simp [rowsTrace]
  | succ k ih =>
    intro n t hn h0 hk
    obtain ⟨n', rfl⟩ : ∃ n', n = n' + 1 :=
      ⟨n - 1, (Nat.succ_pred_eq_of_pos (Nat.lt_of_le_of_lt (Nat.zero_le _) hn)).symm⟩
    have hf0 : f t = [] := by simpa using h0 0 (Nat.succ_pos k)
    show (produce >>= fun parsed =>
      if parsed.isEmpty then waitM ivl >>= fun _ => pollRows produce post ivl n'
      else pure (post parsed)) t = _
    rw [bind_run, hprod t, hf0]
    have hrec := ih n' (t + 1) (Nat.lt_of_succ_lt_succ hn)
      (fun j hj => by
        have := h0 (j + 1) (Nat.succ_lt_succ hj)
        simpa [Nat.add_assoc, Nat.add_comm 1 j] using this)
      (by
        have : t + 1 + k = t + (k + 1) := by omega
        rw [this]
        exact hk)
    simp only [List.isEmpty_nil, if_true, bind_run, waitM_run, hrec]
    simp [rowsTrace, Nat.add_assoc, Nat.add_comm 1 k]

theorem pollOption_count_le {α : Type} (produce : M (Option α))
    (f : Nat → Option α) (ptr : List Effect)
    (hprod : ∀ u, produce u = ⟨.ok (f u), ptr, u⟩) (ivl : Nat) (e : Effect)
    (he : Effect.wait ivl ≠ e) :
    ∀ (n t : Nat),
      countEff e ((pollOption produce ivl n) t).tr ≤ n * countEff e ptr := by
  intro n
  induction n with
  | zero => intro t; simp [pollOption, countEff]
  | succ n ih =>
    intro t
    show countEff e ((produce >>= fun r => match r with
      | some v => pure (some v)
      | none => waitM ivl >>= fun _ => pollOption produce ivl n) t).tr ≤ _
    rw [bind_run, hprod t]
    cases hf : f (t : Nat) with
    | some v =>
      simp only [hf]
      calc countEff e (ptr ++ []) = countEff e ptr := by
            rw [countEff_append]; simp [countEff]
        _ ≤ (n + 1) * countEff e ptr := by
            have := Nat.le_mul_of_pos_left (countEff e ptr) (Nat.succ_pos n)
            simpa using this
    | none =>
      simp only [hf, bind_run, waitM_run]
      rw [countEff_append, countEff_append]
      have hw : countEff e [Effect.wait ivl] = 0 := by
        unfold countEff
        simp [List.filter_cons, he]
      rw [hw, Nat.zero_add]
      have := ih (t + 1)
      calc countEff e ptr + countEff e ((pollOption produce ivl n) (t + 1)).tr
          ≤ countEff e ptr + n * countEff e ptr := Nat.add_le_add_left this _
        _ = (n + 1) * countEff e ptr := by ring

theorem pollRows_count_le {ρ : Type} (produce : M (List ρ))
    (f : Nat → List ρ) (ptr : List Effect)
    (hprod : ∀ u, produce u = ⟨.ok (f u), ptr, u⟩)
    (post : List ρ → List ρ) (ivl : Nat) (e : Effect)
    (he : Effect.wait ivl ≠ e) :
    ∀ (n t : Nat),
      countEff e ((pollRows produce post ivl n) t).tr ≤ n * countEff e ptr := by
  intro n
  induction n with
  | zero => intro t; simp [pollRows, countEff]
  | succ n ih =>
    intro t
    show countEff e ((produce >>= fun parsed =>
      if parsed.isEmpty then waitM ivl >>= fun _ => pollRows produce post ivl n
      else pure (post parsed)) t).tr ≤ _
    rw [bind_run, hprod t]
    by_cases hf : (f t).isEmpty
    · simp only [hf, if_true, bind_run, waitM_run]
      rw [countEff_append, countEff_append]
      have hw : countEff e [Effect.wait ivl] = 0 := by
        unfold countEff
        simp [List.filter_cons, he]
      rw [hw, Nat.zero_add]
      have := ih (t + 1)
      calc countEff e ptr + countEff e ((pollRows produce post ivl n) (t + 1)).tr
          ≤ countEff e ptr + n * countEff e ptr := Nat.add_le_add_left this _
        _ = (n + 1) * countEff e ptr := by ring
    · simp only [hf, if_false, Bool.false_eq_true]
      calc countEff e (ptr ++ []) = countEff e ptr := by
            rw [countEff_append]; simp [countEff]
        _ ≤ (n + 1) * countEff e ptr := by
            have := Nat.le_mul_of_pos_left (countEff e ptr) (Nat.succ_pos n)
            simpa using this

theorem produceErrorRows_run (env : Env) (u : Nat) :
    produceErrorRows env u = ⟨.ok (gErr env u), errMarks, u⟩ := rfl

theorem produceNetworkRows_run (env : Env) (u : Nat) :
    produceNetworkRows env u = ⟨.ok (gNet env u), netMarks, u⟩ := rfl

theorem extractReplayFromDomM_run (env : Env) (u : Nat) :
    extractReplayFromDomM env u =
      ⟨.ok (fDom env u), [.domRead "extractReplayFromDom"], u⟩ := rfl

theorem ensure_errors_cases (env : Env) (t : Nat) :
    ensureReplayErrorsTabSelected env t =
        ⟨.ok (), [.domRead "getReplayErrorsTabElement"], t⟩ ∨
    ensureReplayErrorsTabSelected env t =
        ⟨.ok (), [.domRead "getReplayErrorsTabElement", .click "errors-tab",
          .wait 350], t + 1⟩ := by
  unfold ensureReplayErrorsTabSelected
  simp only [bind_run, emitEff_run, nowM_run]
  cases h : env.errorsTab t with
  | none => left; simp [h]
  | some active =>
    cases active with
    | true => left; simp [h]
    | false => right; simp [h]

theorem ensure_network_cases (env : Env) (t : Nat) :
    ensureReplayNetworkTabSelected env t =
        ⟨.ok (), [.domRead "getReplayNetworkTabElement"], t⟩ ∨
    ensureReplayNetworkTabSelected env t =
        ⟨.ok (), [.domRead "getReplayNetworkTabElement", .click "network-tab",
          .wait 400], t + 1⟩ := by
  unfold ensureReplayNetworkTabSelected
  simp only [bind_run, emitEff_run, nowM_run]
  cases h : env.networkTab t with
  | none => left; simp [h]
  | some active =>
    cases active with
    | true => left; simp [h]
    | false => right; simp [h]

/-- C5.  Bounded polling: the replay-link retry runs its producing step at
most 8 times and the two row retries at most 12 times; a first non-empty
production is returned immediately (the trace shows exactly the failed
attempts plus the successful one, so no further invocation happens); and
exhaustion returns `none`/an empty collection, not an error.  The row-loop
facts are stated for every attempt budget `n`, which covers the
`maxAttempts = 5` instance of the claim. -/
theorem polling_bounded_and_immediate :
    (∀ (env : Env) (t : Nat),
      countEff (.domRead "extractReplayFromDom")
        ((extractReplayFromDomWithRetry env) t).tr ≤ 8) ∧
    (∀ (env : Env) (t : Nat),
      countEff (.domRead "getReplayErrorRows")
        ((getReplayErrorEventsFromDomWithRetry env) t).tr ≤ 12) ∧
    (∀ (env : Env) (t : Nat),
      countEff (.domRead "getReplayNetworkRows")
        ((getReplayNetworkEventsFromDomWithRetry env) t).tr ≤ 12) ∧
    (∀ (env : Env) (t k : Nat) (link : ReplayLink), k < 8 →
      (∀ j < k, env.domReplay (t + j) = none) →
      env.domReplay (t + k) = some link →
      extractReplayFromDomWithRetry env t =
        ⟨.ok (some (domLinkToRes link)),
          rowsTrace [.domRead "extractReplayFromDom"] 250 k ++
            [.domRead "extractReplayFromDom"], t + k⟩) ∧
    (∀ (env : Env) (t : Nat), (∀ j < 8, env.domReplay (t + j) = none) →
      extractReplayFromDomWithRetry env t =
        ⟨.ok none, rowsTrace [.domRead "extractReplayFromDom"] 250 8, t + 8⟩) ∧
    (∀ (env : Env) (post : List ErrorRow → List ErrorRow) (ivl k n t : Nat),
      k < n → (∀ j < k, gErr env (t + j) = []) → gErr env (t + k) ≠ [] →
      pollRows (produceErrorRows env) post ivl n t =
        ⟨.ok (post (gErr env (t + k))), rowsTrace errMarks ivl k ++ errMarks,
          t + k⟩) ∧
    (∀ (env : Env) (post : List ErrorRow → List ErrorRow) (ivl n t : Nat),
      (∀ j < n, gErr env (t + j) = []) →
      pollRows (produceErrorRows env) post ivl n t =
        ⟨.ok [], rowsTrace errMarks ivl n, t + n⟩) ∧
    (∀ (env : Env) (post : List NetworkRow → List NetworkRow) (ivl k n t : Nat),
      k < n → (∀ j < k, gNet env (t + j) = []) → gNet env (t + k) ≠ [] →
      pollRows (produceNetworkRows env) post ivl n t =
        ⟨.ok (post (gNet env (t + k))), rowsTrace netMarks ivl k ++ netMarks,
          t + k⟩) ∧
    (∀ (env : Env) (post : List NetworkRow → List NetworkRow) (ivl n t : Nat),
      (∀ j < n, gNet env (t + j) = []) →
      pollRows (produceNetworkRows env) post ivl n t =
        ⟨.ok [], rowsTrace netMarks ivl n, t + n⟩) := by
  refine ⟨?_, ?_, ?_, ?_, ?_, ?_, ?_, ?_, ?_⟩
  · intro env t
    have h1 := pollOption_count_le (extractReplayFromDomM env) (fDom env)
      [.domRead "extractReplayFromDom"] (extractReplayFromDomM_run env) 250
      (.domRead "extractReplayFromDom") (by decide) 8 t
    exact Nat.le_trans h1 (by decide)
  · intro env t
    show countEff (.domRead "getReplayErrorRows")
      ((ensureReplayErrorsTabSelected env >>= fun _ =>
        pollRows (produceErrorRows env) dedupeErrorRows 250 12) t).tr ≤ 12
    rw [bind_run]
    have hloop := fun u => Nat.le_trans
      (pollRows_count_le (produceErrorRows env) (gErr env) errMarks
        (produceErrorRows_run env) dedupeErrorRows 250
        (.domRead "getReplayErrorRows") (by decide) 12 u)
      (by decide :
        12 * countEff (Effect.domRead "getReplayErrorRows") errMarks ≤ 12)
    rcases ensure_errors_cases env t with h | h
    · rw [h, countEff_append]
      have h1 : countEff (Effect.domRead "getReplayErrorRows")
        [Effect.domRead "getReplayErrorsTabElement"] = 0 := by decide
      have h2 := hloop t
      omega
    · rw [h, countEff_append]
      have h1 : countEff (Effect.domRead "getReplayErrorRows")
        [Effect.domRead "getReplayErrorsTabElement", Effect.click "errors-tab",
          Effect.wait 350] = 0 := by decide
      have h2 := hloop (t + 1)
      omega
  · intro env t
    show countEff (.domRead "getReplayNetworkRows")
      ((ensureReplayNetworkTabSelected env >>= fun _ =>
        pollRows (produceNetworkRows env) dedupeNetworkRows 250 12) t).tr ≤ 12
    rw [bind_run]
    have hloop := fun u => Nat.le_trans
      (pollRows_count_le (produceNetworkRows env) (gNet env) netMarks
        (produceNetworkRows_run env) dedupeNetworkRows 250
        (.domRead "getReplayNetworkRows") (by decide) 12 u)
      (by decide :
        12 * countEff (Effect.domRead "getReplayNetworkRows") netMarks ≤ 12)
    rcases ensure_network_cases env t with h | h
    · rw [h, countEff_append]
      have h1 : countEff (Effect.domRead "getReplayNetworkRows")
        [Effect.domRead "getReplayNetworkTabElement"] = 0 := by decide
      have h2 := hloop t
      omega
    · rw [h, countEff_append]
      have h1 : countEff (Effect.domRead "getReplayNetworkRows")
        [Effect.domRead "getReplayNetworkTabElement", Effect.click "network-tab",
          Effect.wait 400] = 0 := by decide
      have h2 := hloop (t + 1)
      omega
  · intro env t k link hk h0 hsome
    exact pollOption_first_some (extractReplayFromDomM env) (fDom env)
      [.domRead "extractReplayFromDom"] (extractReplayFromDomM_run env) 250
      k 8 t (domLinkToRes link) hk
      (fun j hj => by unfold fDom; rw [h0 j hj]; rfl)
      (by unfold fDom; rw [hsome]; rfl)
  · intro env t h
    exact pollOption_all_none (extractReplayFromDomM env) (fDom env)
      [.domRead "extractReplayFromDom"] (extractReplayFromDomM_run env) 250 8 t
      (fun j hj => by unfold fDom; rw [h j hj]; rfl)
  · intro env post ivl k n t hk h0 hne
    exact pollRows_first_nonempty (produceErrorRows env) (gErr env) errMarks
      (produceErrorRows_run env) post ivl k n t hk h0 hne
  · intro env post ivl n t h
    exact pollRows_all_empty (produceErrorRows env) (gErr env) errMarks
      (produceErrorRows_run env) post ivl n t h
  · intro env post ivl k n t hk h0 hne
    exact pollRows_first_nonempty (produceNetworkRows env) (gNet env) netMarks
      (produceNetworkRows_run env) post ivl k n t hk h0 hne
  · intro env post ivl n t h
    exact pollRows_all_empty (produceNetworkRows env) (gNet env) netMarks
      (produceNetworkRows_run env) post ivl n t h

/-- Witness for C5: with the producer empty on its first three attempts and
non-empty on the fourth, a budget of `maxAttempts = 5` returns the fourth
attempt's (deduplicated) rows after exactly 4 producer invocations. -/
theorem polling_bounded_and_immediate_witness :
    pollRows (produceErrorRows pollEnvWitness) dedupeErrorRows 250 5 0 =
      ⟨.ok (dedupeErrorRows (gErr pollEnvWitness 3)),
        rowsTrace errMarks 250 3 ++ errMarks, 3⟩ ∧
    countEff (.domRead "getReplayErrorRows")
      (rowsTrace errMarks 250 3 ++ errMarks) = 4 := by
  refine ⟨?_, by decide⟩
  have h := polling_bounded_and_immediate.2.2.2.2.2.1 pollEnvWitness
    dedupeErrorRows 250 3 5 0 (by decide)
    (fun j hj => by
      interval_cases j <;> decide)
    (by decide)
  simpa using h

/-- C3 (amended).  For every page context whose replayId is truthy, replay
resolution returns immediately (the clock does not advance) with
`source = url`, an empty effect trace (zero remote calls, no DOM access,
no click); the replay URL is synthesized from
`{origin, organizationSlug, replayId}` when the organization slug is known,
and falls back to the current page URL otherwise. -/
theorem resolveReplay_url_immediate (env : Env) (ctx : PageContext)
    (rid : String) (h1 : ctx.replayId = some rid) (h2 : rid.isEmpty = false)
    (t : Nat) :
    resolveReplay env ctx t =
      ⟨.ok ⟨rid, resolveUrlValue env ctx rid t, ReplaySource.url⟩, [], t⟩ ∧
    (∀ slug, ctx.organizationSlug = some slug → slug.isEmpty = false →
      resolveUrlValue env ctx rid t = replayUrlFor ctx.origin slug rid) ∧
    (jsTruthyS ctx.organizationSlug = false →
      resolveUrlValue env ctx rid t = env.href t) := by
  refine ⟨?_, ?_, ?_⟩
  · unfold resolveReplay
    rw [h1]
    simp only [h2, Bool.false_eq_true, if_false, bind_run, nowM_run, pure_run]
    rfl
  · intro slug hslug hne
    unfold resolveUrlValue
    rw [hslug]
    simp [hne]
  · intro hfalse
    unfold resolveUrlValue
    cases hs : ctx.organizationSlug with
    | none => rfl
    | some slug =>
      rw [hs] at hfalse
      have he : slug.isEmpty = true := by simpa [jsTruthyS] using hfalse
      simp [he]

/-- Witness for C3 (amended): on a concrete context with a slug, the
resolution is immediate, effect-free and synthesizes the canonical URL. -/
theorem resolveReplay_url_immediate_witness :
    resolveReplay envUrlPage ctxUrlSlug 0 =
      ⟨.ok ⟨"abc123",
        "https://acme.sentry.io/organizations/acme/replays/abc123/",
        ReplaySource.url⟩, [], 0⟩ := by
  have h := (resolveReplay_url_immediate envUrlPage ctxUrlSlug "abc123" rfl
    (by decide) 0).1
  rw [h]
  have : resolveUrlValue envUrlPage ctxUrlSlug "abc123" 0 =
      "https://acme.sentry.io/organizations/acme/replays/abc123/" := by decide
  rw [this]

/-- C3 counterexample: with a replay id but no organization slug, the code
still resolves with `source = url` but returns the current page URL, which
is not synthesized from `{origin, organizationSlug, replayId}` (no slug
exists), so the claim as stated fails at this input. -/
theorem resolveReplay_url_counterexample :
    resolveReplay envUrlPage ctxUrlNoSlug 0 =
      ⟨.ok ⟨"abc123", "https://acme.sentry.io/replays/abc123",
        ReplaySource.url⟩, [], 0⟩ ∧
    ¬ ∃ slug, ctxUrlNoSlug.organizationSlug = some slug ∧
        "https://acme.sentry.io/replays/abc123" =
          replayUrlFor ctxUrlNoSlug.origin slug "abc123" := by
  constructor
  · rfl
  · rintro ⟨slug, hslug, _⟩
    simp [ctxUrlNoSlug] at hslug

theorem ctaLoop_none (env : Env) (before : String)
    (hdom : ∀ u, env.domReplay u = none) (hhref : ∀ u, env.hrefReplay u = none) :
    ∀ (n t : Nat), ∃ tr, ctaLoop env before n t = ⟨.ok none, tr, t + n⟩ := by
  intro n
  induction n with
  | zero => intro t; exact ⟨[], rfl⟩
  | succ n ih =>
    intro t
    obtain ⟨tr, hrec⟩ := ih (t + 1)
    refine ⟨Effect.wait 200 :: Effect.domRead "extractReplayFromDom" :: tr, ?_⟩
    simp only [ctaLoop, bind_run, waitM_run, emitEff_run, nowM_run, hdom, hhref,
      hrec]
    simp [Nat.add_assoc, Nat.add_comm 1 n]

theorem extractReplayByClickingCta_none (env : Env)
    (hdom : ∀ u, env.domReplay u = none) (hhref : ∀ u, env.hrefReplay u = none)
    (t : Nat) :
    ∃ tr t', extractReplayByClickingCta env t = ⟨.ok none, tr, t'⟩ := by
  unfold extractReplayByClickingCta
  cases hc : env.ctaPresent t with
  | false =>
    refine ⟨[.domRead "getReplayCtaElements"], t, ?_⟩
    simp [bind_run, emitEff_run, nowM_run, hc]
  | true =>
    obtain ⟨tr, hloop⟩ := ctaLoop_none env (env.href t) hdom hhref 10 t
    refine ⟨Effect.domRead "getReplayCtaElements" :: Effect.click "cta" :: tr,
      t + 10, ?_⟩
    simp only [bind_run, emitEff_run, nowM_run, hc, Bool.not_true,
      Bool.false_eq_true, if_false, hloop]
    rfl

theorem resolveReplay_not_truthy (env : Env) (ctx : PageContext)
    (h : jsTruthyS ctx.replayId = false) (t : Nat) :
    resolveReplay env ctx t = resolveReplayChain env ctx t := by
  unfold resolveReplay
  cases hr : ctx.replayId with
  | none => rfl
  | some rid =>
    rw [hr] at h
    have he : rid.isEmpty = true := by simpa [jsTruthyS] using h
    simp [he]

theorem resolveReplayChain_precondition_errors (env : Env) (ctx : PageContext)
    (hdom : ∀ u, env.domReplay u = none) (hhref : ∀ u, env.hrefReplay u = none)
    (t : Nat) :
    (jsTruthyS ctx.issueId = false →
      (resolveReplayChain env ctx t).res =
        .error "No replay found on this page.") ∧
    (jsTruthyS ctx.issueId = true → jsTruthyS ctx.organizationSlug = false →
      (resolveReplayChain env ctx t).res =
        .error "No replay link found in DOM for this issue.") := by
  have hretry : extractReplayFromDomWithRetry env t =
      ⟨.ok none, rowsTrace [.domRead "extractReplayFromDom"] 250 8, t + 8⟩ :=
    pollOption_all_none (extractReplayFromDomM env) (fDom env)
      [.domRead "extractReplayFromDom"] (extractReplayFromDomM_run env) 250 8 t
      (fun j _ => by unfold fDom; rw [hdom]; rfl)
  obtain ⟨trc, tc, hcta⟩ := extractReplayByClickingCta_none env hdom hhref (t + 8)
  constructor
  · intro hIssue
    unfold resolveReplayChain
    rw [bind_run, hretry]
    dsimp only
    rw [bind_run, hcta]
    dsimp only
    rw [hIssue]
    simp only [Bool.not_false, if_true, throwM_run]
  · intro hIssue hOrg
    unfold resolveReplayChain
    rw [bind_run, hretry]
    dsimp only
    rw [bind_run, hcta]
    dsimp only
    rw [hIssue, hOrg]
    simp only [Bool.not_true, Bool.false_eq_true, if_false, jsTruthyS,
      throwM_run]

theorem bind_res {α β : Type} (x : M α) (f : α → M β) (t : Nat) :
    ((x >>= f) t).res = match x t with
      | ⟨.ok a, _, t1⟩ => (f a t1).res
      | ⟨.error e, _, _⟩ => .error e := by
  rw [bind_run]
  rcases x t with ⟨res, tr, time⟩
  cases res <;> rfl

theorem respond_of_error (x : M ActionData) (t : Nat) (e : String)
    (h : (x t).res = .error e) : respond x t = ⟨false, some e, none⟩ := by
  unfold respond
  rcases hx : x t with ⟨res, tr, time⟩
  rw [hx] at h
  simp only at h
  rw [h]

theorem runAction_openReplay_res (env : Env) (t : Nat) :
    ((runActionM .openReplay env) t).res =
      match resolveReplay env
          (getPageContext env.origin env.pathname env.domOrgSlug) t with
      | ⟨.ok r, _, _⟩ => .ok (ActionData.replay r)
      | ⟨.error e, _, _⟩ => .error e := by
  unfold runActionM handleOpenReplay
  rw [bind_res]
  dsimp only [emitEff_run]
  rw [bind_res]
  rcases hx : resolveReplay env
    (getPageContext env.origin env.pathname env.domOrgSlug) t with ⟨res, tr, time⟩
  cases res <;> rfl

/-- C4.  When replay resolution reaches the api state (no replay id in the
URL, nothing found by the dom and dom-click states), a missing issue id or
a missing organization slug raises a descriptive error, and the action's
response envelope is `{ok: false, error: message}` rather than an empty
success. -/
theorem api_state_missing_preconditions_error (env : Env) (t : Nat)
    (hdom : ∀ u, env.domReplay u = none)
    (hhref : ∀ u, env.hrefReplay u = none)
    (hrid : jsTruthyS
      (getPageContext env.origin env.pathname env.domOrgSlug).replayId = false) :
    (jsTruthyS
        (getPageContext env.origin env.pathname env.domOrgSlug).issueId = false →
      respond (runActionM .openReplay env) t =
        ⟨false, some "No replay found on this page.", none⟩) ∧
    (jsTruthyS
        (getPageContext env.origin env.pathname env.domOrgSlug).issueId = true →
      jsTruthyS
        (getPageContext env.origin env.pathname env.domOrgSlug).organizationSlug
          = false →
      respond (runActionM .openReplay env) t =
        ⟨false, some "No replay link found in DOM for this issue.", none⟩) := by
  have hres := resolveReplayChain_precondition_errors env
    (getPageContext env.origin env.pathname env.domOrgSlug) hdom hhref t
  have hrun := runAction_openReplay_res env t
  rw [resolveReplay_not_truthy env _ hrid t] at hrun
  rcases hx : resolveReplayChain env
    (getPageContext env.origin env.pathname env.domOrgSlug) t with ⟨res, tr, time⟩
  rw [hx] at hrun
  constructor
  · intro hIssue
    have herr := hres.1 hIssue
    rw [hx] at herr
    simp only at herr
    rw [herr] at hrun
    exact respond_of_error _ _ _ hrun
  · intro hIssue hOrg
    have herr := hres.2 hIssue hOrg
    rw [hx] at herr
    simp only at herr
    rw [herr] at hrun
    exact respond_of_error _ _ _ hrun

/-- Witness for C4: on a context-free page the envelope carries the
"no replay found" error; on a bare issue page with no organization slug it
carries the "no replay link" error. -/
theorem api_state_missing_preconditions_error_witness :
    respond (runActionM .openReplay envNoContext) 0 =
      ⟨false, some "No replay found on this page.", none⟩ ∧
    respond (runActionM .openReplay envIssueNoOrg) 0 =
      ⟨false, some "No replay link found in DOM for this issue.", none⟩ := by
  constructor
  · exact (api_state_missing_preconditions_error envNoContext 0
      (fun u => rfl) (fun u => rfl) (by decide)).1 (by decide)
  · exact (api_state_missing_preconditions_error envIssueNoOrg 0
      (fun u => rfl) (fun u => rfl) (by decide)).2 (by decide) (by decide)

/-! ### Effect-profile lemmas -/

theorem effectProfile_mono {α : Type} (x : M α) (allow : Effect → Bool)
    {nc ne nn nc2 ne2 nn2 : Nat} (h : EffectProfile x allow nc ne nn)
    (hc : nc ≤ nc2) (he : ne ≤ ne2) (hn : nn ≤ nn2) :
    EffectProfile x allow nc2 ne2 nn2 := by
  intro t
  obtain ⟨ha, h1, h2, h3⟩ := h t
  exact ⟨ha, h1.trans hc, h2.trans he, h3.trans hn⟩

theorem effectProfile_allow_mono {α : Type} (x : M α)
    (allow allow2 : Effect → Bool) {nc ne nn : Nat}
    (himp : ∀ e, allow e = true → allow2 e = true)
    (h : EffectProfile x allow nc ne nn) : EffectProfile x allow2 nc ne nn := by
  intro t
  obtain ⟨ha, h1, h2, h3⟩ := h t
  refine ⟨?_, h1, h2, h3⟩
  rw [List.all_eq_true] at ha ⊢
  exact fun e he => himp e (ha e he)

theorem effectProfile_bind {α β : Type} (x : M α) (f : α → M β)
    (allow : Effect → Bool) (nc ne nn mc me mn : Nat)
    (hx : EffectProfile x allow nc ne nn)
    (hf : ∀ a, EffectProfile (f a) allow mc me mn) :
    EffectProfile (x >>= f) allow (nc + mc) (ne + me) (nn + mn) := by
  intro t
  obtain ⟨ha, h1, h2, h3⟩ := hx t
  rw [show ((x >>= f) t).tr = (match x t with
    | ⟨.ok a, tr1, t1⟩ => tr1 ++ (f a t1).tr
    | ⟨.error _, tr1, _⟩ => tr1) from by rw [bind_run]; rcases x t with ⟨r, tr1, t1⟩; cases r <;> rfl]
  rcases hx0 : x t with ⟨res, tr1, t1⟩
  rw [hx0] at ha h1 h2 h3
  simp only at ha h1 h2 h3
  cases res with
  | error e =>
    exact ⟨ha, h1.trans (Nat.le_add_right _ _), h2.trans (Nat.le_add_right _ _),
      h3.trans (Nat.le_add_right _ _)⟩
  | ok a =>
    obtain ⟨hb, g1, g2, g3⟩ := hf a t1
    refine ⟨?_, ?_, ?_, ?_⟩
    · simp only [List.all_append, ha, hb, Bool.and_self]
    all_goals rw [countEff_append]; omega

theorem effectProfile_bind0 {α β : Type} (x : M α) (f : α → M β)
    (allow : Effect → Bool)
    (hx : EffectProfile x allow 0 0 0)
    (hf : ∀ a, EffectProfile (f a) allow 0 0 0) :
    EffectProfile (x >>= f) allow 0 0 0 :=
  effectProfile_bind x f allow 0 0 0 0 0 0 hx hf

theorem effectProfile_pure {α : Type} (a : α) (allow : Effect → Bool) :
    EffectProfile (pure a : M α) allow 0 0 0 := by
  intro t
  exact ⟨rfl, Nat.le_refl 0, Nat.le_refl 0, Nat.le_refl 0⟩

theorem effectProfile_throw {α : Type} (msg : String) (allow : Effect → Bool) :
    EffectProfile (throwM msg : M α) allow 0 0 0 := by
  intro t
  exact ⟨rfl, Nat.le_refl 0, Nat.le_refl 0, Nat.le_refl 0⟩

theorem effectProfile_now (allow : Effect → Bool) :
    EffectProfile nowM allow 0 0 0 := by
  intro t
  exact ⟨rfl, Nat.le_refl 0, Nat.le_refl 0, Nat.le_refl 0⟩

theorem effectProfile_wait (ms : Nat) (allow : Effect → Bool)
    (h : allow (Effect.wait ms) = true) :
    EffectProfile (waitM ms) allow 0 0 0 := by
  intro t
  have hne : ∀ tag, (Effect.wait ms == Effect.click tag) = false :=
    fun tag => by simp
  refine ⟨?_, ?_, ?_, ?_⟩
  · simp [waitM_run, h]
  all_goals simp [waitM_run, countEff, List.filter, hne]

theorem effectProfile_emit_nonclick (e : Effect) (allow : Effect → Bool)
    (h : allow e = true) (hnc : isClickEff e = false) :
    EffectProfile (emitEff e) allow 0 0 0 := by
  intro t
  have hne : ∀ tag, (e == Effect.click tag) = false := by
    intro tag
    cases e <;> simp_all [isClickEff]
  refine ⟨?_, ?_, ?_, ?_⟩
  · simp [emitEff_run, h]
  all_goals simp [emitEff_run, countEff, List.filter, hne]

theorem effectProfile_emit_cta (allow : Effect → Bool)
    (h : allow (Effect.click "cta") = true) :
    EffectProfile (emitEff (Effect.click "cta")) allow 1 0 0 := by
  intro t
  have d1 : ∀ a b : String, (Effect.click a == Effect.click b) = (a == b) := by
    intro a b
    cases hab : a == b
    · have : ¬ a = b := by simpa using hab
      simp [this]
    · have : a = b := by simpa using hab
      simp [this]
  refine ⟨by simp [emitEff_run, h], ?_, ?_, ?_⟩
  all_goals simp [emitEff_run, countEff, List.filter, d1]

theorem effectProfile_emit_errtab (allow : Effect → Bool)
    (h : allow (Effect.click "errors-tab") = true) :
    EffectProfile (emitEff (Effect.click "errors-tab")) allow 0 1 0 := by
  intro t
  have d1 : ∀ a b : String, (Effect.click a == Effect.click b) = (a == b) := by
    intro a b
    cases hab : a == b
    · have : ¬ a = b := by simpa using hab
      simp [this]
    · have : a = b := by simpa using hab
      simp [this]
  refine ⟨by simp [emitEff_run, h], ?_, ?_, ?_⟩
  all_goals simp [emitEff_run, countEff, List.filter, d1]

theorem effectProfile_emit_nettab (allow : Effect → Bool)
    (h : allow (Effect.click "network-tab") = true) :
    EffectProfile (emitEff (Effect.click "network-tab")) allow 0 0 1 := by
  intro t
  have d1 : ∀ a b : String, (Effect.click a == Effect.click b) = (a == b) := by
    intro a b
    cases hab : a == b
    · have : ¬ a = b := by simpa using hab
      simp [this]
    · have : a = b := by simpa using hab
      simp [this]
  refine ⟨by simp [emitEff_run, h], ?_, ?_, ?_⟩
  all_goals simp [emitEff_run, countEff, List.filter, d1]

theorem effectProfile_bind_right {α β : Type} (x : M α) (f : α → M β)
    (allow : Effect → Bool) (mc me mn : Nat)
    (hx : EffectProfile x allow 0 0 0)
    (hf : ∀ a, EffectProfile (f a) allow mc me mn) :
    EffectProfile (x >>= f) allow mc me mn := by
  have h := effectProfile_bind x f allow 0 0 0 mc me mn hx hf
  exact effectProfile_mono _ allow h (by omega) (by omega) (by omega)

theorem effectProfile_bind_left {α β : Type} (x : M α) (f : α → M β)
    (allow : Effect → Bool) (nc ne nn : Nat)
    (hx : EffectProfile x allow nc ne nn)
    (hf : ∀ a, EffectProfile (f a) allow 0 0 0) :
    EffectProfile (x >>= f) allow nc ne nn := by
  have h := effectProfile_bind x f allow nc ne nn 0 0 0 hx hf
  exact effectProfile_mono _ allow h (by omega) (by omega) (by omega)

theorem effectProfile_bind_both {α β : Type} (x : M α) (f : α → M β)
    (allow : Effect → Bool) (nc ne nn mc me mn kc ke kn : Nat)
    (hx : EffectProfile x allow nc ne nn)
    (hf : ∀ a, EffectProfile (f a) allow mc me mn)
    (h1 : nc + mc ≤ kc) (h2 : ne + me ≤ ke) (h3 : nn + mn ≤ kn) :
    EffectProfile (x >>= f) allow kc ke kn := by
  have h := effectProfile_bind x f allow nc ne nn mc me mn hx hf
  exact effectProfile_mono _ allow h h1 h2 h3

theorem resolveEff_clickOk : ∀ e, resolveEff e = true → clickOkEff e = true := by
  intro e h
  cases e with
  | domRead tag => rfl
  | click tag =>
    simp only [resolveEff] at h
    simp [clickOkEff, h]
  | historyBack => rfl
  | wait ms => rfl
  | remoteGet ep => rfl

theorem profile_extractReplayFromDomM (env : Env) :
    EffectProfile (extractReplayFromDomM env) resolveEff 0 0 0 := by
  intro t
  exact ⟨rfl, Nat.le_refl 0, Nat.le_refl 0, Nat.le_refl 0⟩

theorem profile_pollOption {α : Type} (produce : M (Option α)) (ivl : Nat)
    (allow : Effect → Bool) (hw : allow (Effect.wait ivl) = true)
    (hp : EffectProfile produce allow 0 0 0) :
    ∀ n, EffectProfile (pollOption produce ivl n) allow 0 0 0 := by
  intro n
  induction n with
  | zero => exact effectProfile_pure none allow
  | succ n ih =>
    unfold pollOption
    refine effectProfile_bind0 _ _ _ hp ?_
    intro r
    cases r with
    | some v => exact effectProfile_pure _ allow
    | none =>
      exact effectProfile_bind0 _ _ _ (effectProfile_wait ivl allow hw)
        (fun _ => ih)

theorem profile_domRetry (env : Env) :
    EffectProfile (extractReplayFromDomWithRetry env) resolveEff 0 0 0 :=
  profile_pollOption _ 250 resolveEff (by decide)
    (profile_extractReplayFromDomM env) 8

theorem profile_ctaLoop (env : Env) (before : String) :
    ∀ n, EffectProfile (ctaLoop env before n) resolveEff 0 0 0 := by
  intro n
  induction n with
  | zero => exact effectProfile_pure none resolveEff
  | succ n ih =>
    unfold ctaLoop
    refine effectProfile_bind0 _ _ _
      (effectProfile_wait 200 resolveEff (by decide)) ?_
    intro u
    refine effectProfile_bind0 _ _ _
      (effectProfile_emit_nonclick _ resolveEff (by decide) (by decide)) ?_
    intro v
    refine effectProfile_bind0 _ _ _ (effectProfile_now resolveEff) ?_
    intro t
    dsimp only
    cases hd : env.domReplay t with
    | some link => exact effectProfile_pure _ resolveEff
    | none =>
      cases hh : env.hrefReplay t with
      | some link =>
        dsimp only
        split
        · exact effectProfile_bind0 _ _ _
            (effectProfile_emit_nonclick _ resolveEff (by decide) (by decide))
            (fun _ => effectProfile_pure _ resolveEff)
        · exact effectProfile_bind0 _ _ _ (effectProfile_pure _ resolveEff)
            (fun _ => effectProfile_pure _ resolveEff)
      | none => exact ih

theorem profile_cta (env : Env) :
    EffectProfile (extractReplayByClickingCta env) resolveEff 1 0 0 := by
  unfold extractReplayByClickingCta
  refine effectProfile_bind_right _ _ _ 1 0 0
    (effectProfile_emit_nonclick _ resolveEff (by decide) (by decide)) ?_
  intro u
  refine effectProfile_bind_right _ _ _ 1 0 0 (effectProfile_now resolveEff) ?_
  intro t
  dsimp only
  split
  · exact effectProfile_mono _ resolveEff (effectProfile_pure _ resolveEff)
      (by omega) (by omega) (by omega)
  · exact effectProfile_bind_left _ _ _ 1 0 0
      (effectProfile_emit_cta resolveEff (by decide))
      (fun _ => profile_ctaLoop env _ 10)

theorem profile_chain (env : Env) (ctx : PageContext) :
    EffectProfile (resolveReplayChain env ctx) resolveEff 1 0 0 := by
  unfold resolveReplayChain
  refine effectProfile_bind_right _ _ _ 1 0 0 (profile_domRetry env) ?_
  intro domReplay
  dsimp only
  cases domReplay with
  | some r =>
    exact effectProfile_mono _ resolveEff (effectProfile_pure _ _)
      (by omega) (by omega) (by omega)
  | none =>
    refine effectProfile_bind_left _ _ _ 1 0 0 (profile_cta env) ?_
    intro clicked
    dsimp only
    cases clicked with
    | some r => exact effectProfile_pure _ _
    | none =>
      dsimp only
      split
      · exact effectProfile_throw _ _
      · split
        · exact effectProfile_throw _ _
        · refine effectProfile_bind0 _ _ _
            (effectProfile_emit_nonclick _ resolveEff rfl rfl) ?_
          intro u
          refine effectProfile_bind0 _ _ _ (effectProfile_now resolveEff) ?_
          intro t
          dsimp only
          split
          · exact effectProfile_throw _ _
          · split
            · split
              · exact effectProfile_throw _ _
              · exact effectProfile_pure _ _
            · exact effectProfile_throw _ _

theorem profile_resolveReplay (env : Env) (ctx : PageContext) :
    EffectProfile (resolveReplay env ctx) resolveEff 1 0 0 := by
  unfold resolveReplay
  cases hr : ctx.replayId with
  | none => exact profile_chain env ctx
  | some rid =>
    dsimp only
    split
    · exact profile_chain env ctx
    · refine effectProfile_bind_right _ _ _ 1 0 0 (effectProfile_now resolveEff) ?_
      intro t
      exact effectProfile_mono _ _ (effectProfile_pure _ _)
        (by omega) (by omega) (by omega)

theorem profile_resolve_clickOk (env : Env) (ctx : PageContext) :
    EffectProfile (resolveReplay env ctx) clickOkEff 1 0 0 :=
  effectProfile_allow_mono _ _ _ resolveEff_clickOk (profile_resolveReplay env ctx)

theorem profile_ensureErrors (env : Env) :
    EffectProfile (ensureReplayErrorsTabSelected env) clickOkEff 0 1 0 := by
  unfold ensureReplayErrorsTabSelected
  refine effectProfile_bind_right _ _ _ 0 1 0
    (effectProfile_emit_nonclick _ clickOkEff rfl rfl) ?_
  intro u
  refine effectProfile_bind_right _ _ _ 0 1 0 (effectProfile_now clickOkEff) ?_
  intro t
  dsimp only
  split
  · exact effectProfile_mono _ _ (effectProfile_pure _ _)
      (by omega) (by omega) (by omega)
  · split
    · exact effectProfile_mono _ _ (effectProfile_pure _ _)
        (by omega) (by omega) (by omega)
    · exact effectProfile_bind_left _ _ _ 0 1 0
        (effectProfile_emit_errtab clickOkEff (by decide))
        (fun _ => effectProfile_wait 350 clickOkEff rfl)

theorem profile_ensureNetwork (env : Env) :
    EffectProfile (ensureReplayNetworkTabSelected env) clickOkEff 0 0 1 := by
  unfold ensureReplayNetworkTabSelected
  refine effectProfile_bind_right _ _ _ 0 0 1
    (effectProfile_emit_nonclick _ clickOkEff rfl rfl) ?_
  intro u
  refine effectProfile_bind_right _ _ _ 0 0 1 (effectProfile_now clickOkEff) ?_
  intro t
  dsimp only
  split
  · exact effectProfile_mono _ _ (effectProfile_pure _ _)
      (by omega) (by omega) (by omega)
  · split
    · exact effectProfile_mono _ _ (effectProfile_pure _ _)
        (by omega) (by omega) (by omega)
    · exact effectProfile_bind_left _ _ _ 0 0 1
        (effectProfile_emit_nettab clickOkEff (by decide))
        (fun _ => effectProfile_wait 400 clickOkEff rfl)

theorem profile_pollRows {ρ : Type} (produce : M (List ρ))
    (post : List ρ → List ρ) (ivl : Nat) (allow : Effect → Bool)
    (hw : allow (Effect.wait ivl) = true)
    (hp : EffectProfile produce allow 0 0 0) :
    ∀ n, EffectProfile (pollRows produce post ivl n) allow 0 0 0 := by
  intro n
  induction n with
  | zero => exact effectProfile_pure _ allow
  | succ n ih =>
    unfold pollRows
    refine effectProfile_bind0 _ _ _ hp ?_
    intro parsed
    dsimp only
    split
    · exact effectProfile_bind0 _ _ _ (effectProfile_wait ivl allow hw)
        (fun _ => ih)
    · exact effectProfile_pure _ allow

theorem profile_produceErrorRows (env : Env) :
    EffectProfile (produceErrorRows env) clickOkEff 0 0 0 := by
  unfold produceErrorRows
  refine effectProfile_bind0 _ _ _ (effectProfile_emit_nonclick _ _ rfl rfl) ?_
  intro u
  refine effectProfile_bind0 _ _ _ (effectProfile_emit_nonclick _ _ rfl rfl) ?_
  intro v
  refine effectProfile_bind0 _ _ _ (effectProfile_emit_nonclick _ _ rfl rfl) ?_
  intro w
  refine effectProfile_bind0 _ _ _ (effectProfile_now _) ?_
  intro t
  exact effectProfile_pure _ _

theorem profile_produceNetworkRows (env : Env) :
    EffectProfile (produceNetworkRows env) clickOkEff 0 0 0 := by
  unfold produceNetworkRows
  refine effectProfile_bind0 _ _ _ (effectProfile_emit_nonclick _ _ rfl rfl) ?_
  intro u
  refine effectProfile_bind0 _ _ _ (effectProfile_emit_nonclick _ _ rfl rfl) ?_
  intro v
  refine effectProfile_bind0 _ _ _ (effectProfile_now _) ?_
  intro t
  exact effectProfile_pure _ _

theorem profile_errRetry (env : Env) :
    EffectProfile (getReplayErrorEventsFromDomWithRetry env) clickOkEff 0 1 0 := by
  unfold getReplayErrorEventsFromDomWithRetry
  exact effectProfile_bind_left _ _ _ 0 1 0 (profile_ensureErrors env)
    (fun _ => profile_pollRows _ _ 250 clickOkEff rfl
      (profile_produceErrorRows env) 12)

theorem profile_netRetry (env : Env) :
    EffectProfile (getReplayNetworkEventsFromDomWithRetry env) clickOkEff 0 0 1 := by
  unfold getReplayNetworkEventsFromDomWithRetry
  exact effectProfile_bind_left _ _ _ 0 0 1 (profile_ensureNetwork env)
    (fun _ => profile_pollRows _ _ 250 clickOkEff rfl
      (profile_produceNetworkRows env) 12)

theorem profile_latestEvent (env : Env) (ctx : PageContext) :
    EffectProfile (getLatestIssueEvent env ctx) clickOkEff 0 0 0 := by
  unfold getLatestIssueEvent
  split
  · exact effectProfile_throw _ _
  · split
    · exact effectProfile_throw _ _
    · refine effectProfile_bind0 _ _ _
        (effectProfile_emit_nonclick _ _ rfl rfl) ?_
      intro u
      refine effectProfile_bind0 _ _ _ (effectProfile_now _) ?_
      intro t
      dsimp only
      split
      · exact effectProfile_pure _ _
      · exact effectProfile_throw _ _

theorem profile_errApi (env : Env) (ctx : PageContext) :
    EffectProfile (getReplayErrorEventsApiM env ctx) clickOkEff 0 0 0 := by
  unfold getReplayErrorEventsApiM
  split
  · exact effectProfile_throw _ _
  · refine effectProfile_bind0 _ _ _
      (effectProfile_emit_nonclick _ _ rfl rfl) ?_
    intro u
    refine effectProfile_bind0 _ _ _ (effectProfile_now _) ?_
    intro t
    exact effectProfile_pure _ _

theorem profile_stacktrace (env : Env) (ctx : PageContext) :
    EffectProfile (handleRawStacktracePrompt env ctx) clickOkEff 0 0 0 := by
  unfold handleRawStacktracePrompt
  split
  · exact effectProfile_throw _ _
  · refine effectProfile_bind0 _ _ _
      (effectProfile_emit_nonclick _ _ rfl rfl) ?_
    intro u
    refine effectProfile_bind0 _ _ _ (effectProfile_now _) ?_
    intro t
    dsimp only
    split
    · refine effectProfile_bind0 _ _ _
        (effectProfile_emit_nonclick _ _ rfl rfl) ?_
      intro u2
      refine effectProfile_bind0 _ _ _ (effectProfile_now _) ?_
      intro t2
      dsimp only
      refine effectProfile_bind0 _ _ _
        (effectProfile_emit_nonclick _ _ rfl rfl) ?_
      intro u3
      refine effectProfile_bind0 _ _ _ (effectProfile_now _) ?_
      intro t3
      exact effectProfile_pure _ _
    · refine effectProfile_bind0 _ _ _ (profile_latestEvent env ctx) ?_
      intro ev
      dsimp only
      split
      · exact effectProfile_throw _ _
      · exact effectProfile_pure _ _

theorem profile_userDetails (env : Env) (ctx : PageContext) :
    EffectProfile (handleUserDetails env ctx) clickOkEff 0 0 0 := by
  unfold handleUserDetails
  split
  · exact effectProfile_throw _ _
  · exact effectProfile_bind0 _ _ _ (profile_latestEvent env ctx)
      (fun ev => effectProfile_pure _ _)

theorem profile_replayErrors (env : Env) (ctx : PageContext) :
    EffectProfile (handleReplayErrors env ctx) clickOkEff 1 1 0 := by
  unfold handleReplayErrors
  refine effectProfile_bind_both _ _ _ 1 0 0 0 1 0 1 1 0
    (profile_resolve_clickOk env ctx) ?_ (by decide) (by decide) (by decide)
  intro replay
  dsimp only
  refine effectProfile_bind_right _ _ _ 0 1 0 ?_ ?_
  · split
    · refine effectProfile_bind0 _ _ _
        (effectProfile_emit_nonclick _ _ rfl rfl) ?_
      intro u
      refine effectProfile_bind0 _ _ _ (effectProfile_now _) ?_
      intro t
      exact effectProfile_pure _ _
    · exact effectProfile_pure _ _
  · intro replayDetails
    dsimp only
    refine effectProfile_bind_left _ _ _ 0 1 0 (profile_errRetry env) ?_
    intro fromDom
    dsimp only
    refine effectProfile_bind0 _ _ _ ?_ ?_
    · split
      · exact profile_errApi env ctx
      · exact effectProfile_pure _ _
    · intro fromApi
      dsimp only
      refine effectProfile_bind0 _ _ _
        (effectProfile_emit_nonclick _ _ rfl rfl) ?_
      intro u1
      refine effectProfile_bind0 _ _ _
        (effectProfile_emit_nonclick _ _ rfl rfl) ?_
      intro u2
      refine effectProfile_bind0 _ _ _ (effectProfile_now _) ?_
      intro tc
      dsimp only
      refine effectProfile_bind0 _ _ _
        (effectProfile_emit_nonclick _ _ rfl rfl) ?_
      intro u3
      refine effectProfile_bind0 _ _ _
        (effectProfile_emit_nonclick _ _ rfl rfl) ?_
      intro u4
      refine effectProfile_bind0 _ _ _
        (effectProfile_emit_nonclick _ _ rfl rfl) ?_
      intro u5
      refine effectProfile_bind0 _ _ _ (effectProfile_now _) ?_
      intro td
      exact effectProfile_pure _ _

theorem profile_networkErrors (env : Env) (ctx : PageContext) :
    EffectProfile (handleReplayNetworkErrors env ctx) clickOkEff 1 0 1 := by
  unfold handleReplayNetworkErrors
  refine effectProfile_bind_both _ _ _ 1 0 0 0 0 1 1 0 1
    (profile_resolve_clickOk env ctx) ?_ (by decide) (by decide) (by decide)
  intro replay
  dsimp only
  split
  · exact effectProfile_mono _ _ (effectProfile_pure _ _)
      (by omega) (by omega) (by omega)
  · refine effectProfile_bind_right _ _ _ 0 0 1 ?_ ?_
    · split
      · refine effectProfile_bind0 _ _ _
          (effectProfile_emit_nonclick _ _ rfl rfl) ?_
        intro u
        refine effectProfile_bind0 _ _ _ (effectProfile_now _) ?_
        intro t
        exact effectProfile_pure _ _
      · exact effectProfile_pure _ _
    · intro replayDetails
      dsimp only
      refine effectProfile_bind_left _ _ _ 0 0 1 (profile_netRetry env) ?_
      intro fromDom
      dsimp only
      refine effectProfile_bind0 _ _ _ ?_ ?_
      · split
        · split
          · refine effectProfile_bind0 _ _ _
              (effectProfile_emit_nonclick _ _ rfl rfl) ?_
            intro u
            refine effectProfile_bind0 _ _ _ (effectProfile_now _) ?_
            intro t
            exact effectProfile_pure _ _
          · exact effectProfile_pure _ _
        · exact effectProfile_pure _ _
      · intro fromApi
        dsimp only
        refine effectProfile_bind0 _ _ _
          (effectProfile_emit_nonclick _ _ rfl rfl) ?_
        intro u1
        refine effectProfile_bind0 _ _ _ (effectProfile_now _) ?_
        intro tc
        dsimp only
        refine effectProfile_bind0 _ _ _
          (effectProfile_emit_nonclick _ _ rfl rfl) ?_
        intro u2
        refine effectProfile_bind0 _ _ _
          (effectProfile_emit_nonclick _ _ rfl rfl) ?_
        intro u3
        refine effectProfile_bind0 _ _ _ (effectProfile_now _) ?_
        intro td
        exact effectProfile_pure _ _

theorem profile_runAction (a : NizoAction) (env : Env) :
    EffectProfile (runActionM a env) clickOkEff 1 1 1 := by
  unfold runActionM
  refine effectProfile_bind_right _ _ _ 1 1 1
    (effectProfile_emit_nonclick _ _ rfl rfl) ?_
  intro u
  dsimp only
  cases a with
  | getRawStacktracePrompt =>
    exact effectProfile_bind_left _ _ _ 1 1 1
      (effectProfile_mono _ _ (profile_stacktrace env _)
        (by omega) (by omega) (by omega))
      (fun r => effectProfile_pure _ _)
  | openReplay =>
    exact effectProfile_bind_left _ _ _ 1 1 1
      (effectProfile_mono _ _ (profile_resolve_clickOk env _)
        (by omega) (by omega) (by omega))
      (fun r => effectProfile_pure _ _)
  | getUserDetails =>
    exact effectProfile_bind_left _ _ _ 1 1 1
      (effectProfile_mono _ _ (profile_userDetails env _)
        (by omega) (by omega) (by omega))
      (fun r => effectProfile_pure _ _)
  | getReplayErrors =>
    exact effectProfile_bind_left _ _ _ 1 1 1
      (effectProfile_mono _ _ (profile_replayErrors env _)
        (by omega) (by omega) (by omega))
      (fun r => effectProfile_pure _ _)
  | getReplayNetworkErrors =>
    exact effectProfile_bind_left _ _ _ 1 1 1
      (effectProfile_mono _ _ (profile_networkErrors env _)
        (by omega) (by omega) (by omega))
      (fun r => effectProfile_pure _ _)

/-- C6 (amended).  Within one action invocation the engine's only DOM
mutations are element clicks at its three click sites: every click effect in
the run's trace is the call-to-action click of dom-click replay resolution,
the Errors-tab activation click or the Network-tab activation click, and
each of the three occurs at most once; the original claim's restriction to
the call-to-action click alone does not hold. -/
theorem action_clicks_bounded (a : NizoAction) (env : Env) (t : Nat) :
    ((runActionM a env t).tr.all clickOkEff = true) ∧
    countEff (Effect.click "cta") (runActionM a env t).tr ≤ 1 ∧
    countEff (Effect.click "errors-tab") (runActionM a env t).tr ≤ 1 ∧
    countEff (Effect.click "network-tab") (runActionM a env t).tr ≤ 1 :=
  profile_runAction a env t

/-- Counterexample to C6 as stated: on a replay page whose Errors panel tab
is present but inactive, the getReplayErrors action's trace contains a click
that is not the call-to-action click — the Errors-tab activation click. -/
theorem single_cta_click_counterexample :
    nonCtaClicks ((runActionM .getReplayErrors envTabClick) 0).tr =
      [Effect.click "errors-tab"] := by decide

theorem resolveEff_no_segments_no_netrows :
    ∀ e, resolveEff e = true →
      (!isRecordingSegmentsGet e && !isNetworkRowsRead e) = true := by
  intro e h
  cases e with
  | domRead tag =>
    simp only [resolveEff] at h
    rcases (Bool.or_eq_true _ _).mp h with h1 | h1
    · have htag : tag = "extractReplayFromDom" := by simpa using h1
      subst htag
      decide
    · have htag : tag = "getReplayCtaElements" := by simpa using h1
      subst htag
      decide
  | click tag => rfl
  | historyBack => rfl
  | wait ms => rfl
  | remoteGet ep =>
    cases ep <;> simp_all [resolveEff, isRecordingSegmentsGet, isNetworkRowsRead]

/-- C10.  On a page whose context is not a replay page, the
getReplayNetworkErrors handler returns immediately after replay resolution
succeeds: the result is the early record with shouldOpenReplay = true, zero
request and error totals and an empty error list, the trace and clock are
exactly those of replay resolution, and that trace contains neither the
network-tab DOM row-extraction read nor the recording-segments remote
query. -/
theorem network_action_early_return (env : Env) (t t2 : Nat)
    (r : ReplayResolution) (tr : List Effect)
    (hpt : (getPageContext env.origin env.pathname env.domOrgSlug).pageType ≠
      PageType.replay)
    (hres : resolveReplay env
      (getPageContext env.origin env.pathname env.domOrgSlug) t =
        ⟨.ok r, tr, t2⟩) :
    handleReplayNetworkErrors env
        (getPageContext env.origin env.pathname env.domOrgSlug) t =
      ⟨.ok (netEarlyResult r), tr, t2⟩ ∧
    tr.all (fun e => !isRecordingSegmentsGet e && !isNetworkRowsRead e) =
      true := by
  constructor
  · unfold handleReplayNetworkErrors
    rw [bind_run, hres]
    dsimp only
    rw [if_pos hpt]
    simp [pure_run]
  · have hall :=
      (profile_resolveReplay env
        (getPageContext env.origin env.pathname env.domOrgSlug) t).1
    rw [hres] at hall
    simp only at hall
    rw [List.all_eq_true] at hall ⊢
    exact fun e he => resolveEff_no_segments_no_netrows e (hall e he)

/-- Witness for C10: a bare issue page whose DOM carries a replay link; the
handler returns the early record with the resolution's one-read trace. -/
theorem network_action_early_return_witness :
    handleReplayNetworkErrors envNetEarly
        (getPageContext envNetEarly.origin envNetEarly.pathname
          envNetEarly.domOrgSlug) 0 =
      ⟨.ok (netEarlyResult
          ⟨"r1", "https://sentry.io/replays/r1/", ReplaySource.dom⟩),
        [Effect.domRead "extractReplayFromDom"], 0⟩ ∧
    [Effect.domRead "extractReplayFromDom"].all
      (fun e => !isRecordingSegmentsGet e && !isNetworkRowsRead e) = true :=
  network_action_early_return envNetEarly 0 0
    ⟨"r1", "https://sentry.io/replays/r1/", ReplaySource.dom⟩
    [Effect.domRead "extractReplayFromDom"] (by decide) rfl
